import Mathlib

/-!
# FoodEx2 validation engine — shallow embedding

A shallow embedding of the FoodEx2 validation engine
(`server/validators/vba-validator.js`, `business-rules-validator.js`,
`hierarchy-helper.js`, `soft-rules-validator.js`, `data-loader.js`,
`foodex2-validator.js`, `foodex2-service.js`), together with theorems that
settle the claims about its specification.

Conventions of the embedding:
* JavaScript strings are Lean `String`s; the JS string operations used by the
  code (`split`, `startsWith`, `toLowerCase`, `includes`, `trim`-based
  truthiness, `substring`) are re-implemented over `String.toList` so that
  every definition evaluates by kernel reduction.  All catalogue codes are
  ASCII, hence JS UTF-16 indexing and Lean character indexing agree.
* Database rows (`terms`, `term_hierarchies`) are in-memory lists; the SQL
  queries of the code become list lookups with the same observable results.
* `parseFloat` ordinal codes are `Rat` (the data holds decimal literals).
* Warnings keep the fields the claims talk about (rule id, severity, type,
  involved term); message texts are dropped.
-/

/-- Warning severity levels (`ERROR, HIGH, LOW, NONE`). -/
inductive Severity where
  | ERROR
  | HIGH
  | LOW
  | NONE
deriving DecidableEq, Repr

/-- A validation warning: rule id, severity, warning type tag and the
involved term (message text omitted). -/
structure Warning where
  rule : String
  severity : Severity
  wtype : String
  involved : String := ""
deriving DecidableEq, Repr

/-- A catalogue term row, as selected by `checkBaseTerm`
(`term_code, extended_name, term_type, detail_level, deprecated,
dismissed, implicit_facets`). -/
structure Term where
  code : String
  name : String
  term_type : String
  detail_level : String
  deprecated : Bool
  dismissed : Bool
  implicit_facets : String
deriving DecidableEq, Repr

/-- A `term_hierarchies` row: term code, hierarchy code, optional parent. -/
structure HRow where
  term_code : String
  hierarchy_code : String
  parent_code : Option String
deriving DecidableEq, Repr

/-- The read-only catalogue database. -/
structure DB where
  terms : List Term
  term_hierarchies : List HRow
deriving DecidableEq, Repr

/-- One record of `BR_Data.csv` as loaded by
`DataLoader.loadForbiddenProcesses`. -/
structure ForbiddenProcess where
  rootGroupCode : String
  forbiddenProcessCode : String
  ordinalCode : Rat
deriving DecidableEq, Repr

/-- A process facet together with its ordinal code, as produced by
`getProcessesWithOrdinalCodes`. -/
structure ProcInfo where
  code : String
  ordinalCode : Rat
  isImplicit : Bool
deriving DecidableEq, Repr

/-! ## JS string operations over `List Char` -/

/-- JS `String.prototype.split` on a character class: fragments between
separator characters (leading/trailing/adjacent separators yield empty
fragments, as in JS). -/
def splitCharsAux (p : Char → Bool) : List Char → List (List Char)
  | [] => [[]]
  | c :: cs =>
    if p c then [] :: splitCharsAux p cs
    else
      match splitCharsAux p cs with
      | [] => [[c]]
      | h :: t => (c :: h) :: t

/-- JS `s.split(sep-class)` producing strings. -/
def jsSplit (p : Char → Bool) (s : String) : List String :=
  (splitCharsAux p s.toList).map String.mk

/-- JS `s.startsWith(pre)`. -/
def jsStartsWith (s pre : String) : Bool :=
  pre.toList.isPrefixOf s.toList

/-- JS `s.toLowerCase()` (ASCII data). -/
def jsToLower (s : String) : String :=
  String.mk (s.toList.map Char.toLower)

/-- JS `s.includes(pat)`: `pat` occurs as a contiguous substring of `s`. -/
def strContains (s pat : String) : Bool :=
  go s.toList
where
  go : List Char → Bool
    | [] => pat.toList.isPrefixOf []
    | c :: cs => pat.toList.isPrefixOf (c :: cs) || go cs

/-- Truthiness of JS `f.trim()`: the string has a non-whitespace character. -/
def hasNonWS (s : String) : Bool :=
  s.toList.any (fun c => !c.isWhitespace)

/-- JS `facet.split('.')`. -/
def splitDot (s : String) : List String :=
  jsSplit (fun c => c = '.') s

/-- `facet.split('.')[0]` (the facet group id; `""` when absent). -/
def facetGroupOf (s : String) : String :=
  (splitDot s).getD 0 ""

/-- `facet.split('.')[1]` (the facet descriptor code; `""` when absent). -/
def facetDescrOf (s : String) : String :=
  (splitDot s).getD 1 ""

/-- JS `arr.join(sep)`. -/
def joinWith (sep : String) : List String → String
  | [] => ""
  | [f] => f
  | f :: fs => f ++ sep ++ joinWith sep fs

/-- JS array/`Set` de-duplication keeping first occurrences
(`[...new Set(arr)]`, object-key insertion order). -/
def firstDedupAux [DecidableEq α] (seen : List α) : List α → List α
  | [] => []
  | a :: as =>
    if a ∈ seen then firstDedupAux seen as
    else a :: firstDedupAux (a :: seen) as

/-- `[...new Set(arr)]`. -/
def firstDedup [DecidableEq α] (l : List α) : List α :=
  firstDedupAux [] l

/-! ## Hierarchy helper (`hierarchy-helper.js`) -/

/-- `SELECT ... FROM terms WHERE term_code = ?` (`db.get`, first match). -/
def dbGetTerm (db : DB) (code : String) : Option Term :=
  db.terms.find? (fun t => t.code = code)

/-- The parent codes recorded for `c` in hierarchy `h`
(the base case of the recursive ancestor CTE; `NULL` parents dropped,
which preserves membership semantics). -/
def parentsOf (db : DB) (h c : String) : List String :=
  (db.term_hierarchies.filter
    (fun r => r.term_code = c && r.hierarchy_code = h)).filterMap
    (fun r => r.parent_code)

/-- Level-by-level unfolding of the recursive ancestor CTE of
`HierarchyHelper.getAncestors`, fuel-bounded. -/
def ancestorsFuel (db : DB) (h : String) : Nat → List String → List String
  | 0, _ => []
  | n + 1, frontier =>
    let ps := (frontier.map (parentsOf db h)).flatten
    ps ++ ancestorsFuel db h n ps

/-- `HierarchyHelper.getAncestors(termCode, hierarchyCode)`: all transitive
ancestors in the hierarchy, in level order.  The fuel
`db.term_hierarchies.length` covers every ancestor chain of an acyclic
catalogue. -/
def getAncestors (db : DB) (termCode hierarchyCode : String) : List String :=
  ancestorsFuel db hierarchyCode db.term_hierarchies.length [termCode]

/-- `HierarchyHelper.isChildOf(childCode, parentCode, hierarchyCode)`. -/
def isChildOf (db : DB) (childCode parentCode hierarchyCode : String) : Bool :=
  if childCode = parentCode then false
  else (getAncestors db childCode hierarchyCode).contains parentCode

/-- `HierarchyHelper.isChildOfAny(childCode, parentCodes, hierarchyCode)`. -/
def isChildOfAny (db : DB) (childCode : String) (parentCodes : List String)
    (hierarchyCode : String) : Bool :=
  parentCodes.any (fun p => (getAncestors db childCode hierarchyCode).contains p)

/-- `HierarchyHelper.isParentOf(parentCode, childCode, hierarchyCode)`. -/
def isParentOf (db : DB) (parentCode childCode hierarchyCode : String) : Bool :=
  isChildOf db childCode parentCode hierarchyCode

/-- `HierarchyHelper.belongsToHierarchy(termCode, hierarchyCode)`. -/
def belongsToHierarchy (db : DB) (termCode hierarchyCode : String) : Bool :=
  db.term_hierarchies.any
    (fun r => r.term_code = termCode && r.hierarchy_code = hierarchyCode)

/-- `HierarchyHelper.getParent(termCode, hierarchyCode)` (first row; a `NULL`
parent yields `none`). -/
def getParent (db : DB) (termCode hierarchyCode : String) : Option String :=
  (db.term_hierarchies.find?
    (fun r => r.term_code = termCode && r.hierarchy_code = hierarchyCode)).bind
    (fun r => r.parent_code)

/-- `HierarchyHelper.areSiblings(term1Code, term2Code, hierarchyCode)`:
both parents exist, are truthy (non-empty in JS) and coincide. -/
def areSiblings (db : DB) (term1Code term2Code hierarchyCode : String) : Bool :=
  match getParent db term1Code hierarchyCode,
        getParent db term2Code hierarchyCode with
  | some p1, some p2 => p1 ≠ "" && p2 ≠ "" && p1 = p2
  | _, _ => false

/-- `HierarchyHelper.isRawCommodity`. -/
def isRawCommodity (t : Term) : Bool := t.term_type = "r"

/-- `HierarchyHelper.isDerivative`. -/
def isDerivative (t : Term) : Bool := t.term_type = "d"

/-- `HierarchyHelper.isComposite`. -/
def isComposite (t : Term) : Bool := t.term_type = "c" || t.term_type = "s"

/-- `HierarchyHelper.isHierarchyTerm`. -/
def isHierarchyTerm (t : Term) : Bool := t.detail_level = "H"

/-- `HierarchyHelper.isFacetTerm`. -/
def isFacetTerm (t : Term) : Bool := t.term_type = "f"

/-- `HierarchyHelper.isNonSpecific`. -/
def isNonSpecific (t : Term) : Bool := t.term_type = "n"

/-- `HierarchyHelper.parseImplicitFacets(implicitFacetsString)` (also
`VBAValidator.getImplicitFacets`): split on `'$'` only, drop empty
fragments.  The `'#'` character is not treated as a separator here. -/
def parseImplicitFacets (implicitFacetsString : String) : List String :=
  if implicitFacetsString = "" then []
  else (jsSplit (fun c => c = '$') implicitFacetsString).filter
    (fun f => f ≠ "")

/-- `HierarchyHelper.isConcentrateOrPowder(term)`: the term name contains one
of the dehydration indicator words, case-insensitively. -/
def isConcentrateOrPowder (t : Term) : Bool :=
  ["concentrate", "powder", "dried", "dehydrated"].any
    (fun ind => strContains (jsToLower t.name) ind)


/-! ## VBA structural validator (`vba-validator.js`) -/

/-- The regex `^[A-Z0-9]{5}$` of `checkBaseTerm` / `checkCorrectFacet`. -/
def isTermCode (s : String) : Bool :=
  s.toList.length = 5 &&
    s.toList.all (fun c => ('A' ≤ c && c ≤ 'Z') || ('0' ≤ c && c ≤ '9'))

/-- The regex `^F\d{2}$` of `checkCorrectFacet`. -/
def isFacetGroupCode (s : String) : Bool :=
  match s.toList with
  | [f, d1, d2] => f = 'F' && d1.isDigit && d2.isDigit
  | _ => false

/-- `VBAValidator.checkBaseTerm(baseTermCode)`: structural regex test, then
database lookup.  Returns the found term (when valid) and the warnings
pushed. -/
def checkBaseTerm (db : DB) (baseTermCode : String) : Option Term × List Warning :=
  if !isTermCode baseTermCode then
    (none, [{ rule := "VBA-STRUCT", severity := .ERROR, wtype := "STRUCTURE" }])
  else
    match dbGetTerm db baseTermCode with
    | none =>
      (none, [{ rule := "VBA-NOTFOUND", severity := .ERROR, wtype := "NOT_FOUND" }])
    | some t => (some t, [])

/-- `VBAValidator.parseFacetString(facetString)`: split on `#` or `$`,
keep fragments whose `trim()` is truthy. -/
def parseFacetString (facetString : String) : List String :=
  if facetString = "" then []
  else (jsSplit (fun c => c = '#' || c = '$') facetString).filter hasNonWS

/-- The warnings `VBAValidator.checkCorrectFacet` pushes for one facet
fragment: missing `.` separator, bad group id, or bad descriptor. -/
def fragmentWarnings (facet : String) : List Warning :=
  match splitDot facet with
  | [groupId, descriptor] =>
    if !isFacetGroupCode groupId then
      [{ rule := "VBA-GROUP", severity := .ERROR, wtype := "STRUCTURE" }]
    else if !isTermCode descriptor then
      [{ rule := "VBA-DESCRIPTOR", severity := .ERROR, wtype := "STRUCTURE" }]
    else []
  | _ => [{ rule := "VBA-FORMAT", severity := .ERROR, wtype := "STRUCTURE" }]

/-- `VBAValidator.checkCorrectFacet(facets)`: overall validity flag and
accumulated warnings. -/
def checkCorrectFacet (facets : List String) : Bool × List Warning :=
  (facets.all (fun f => fragmentWarnings f = []),
   (facets.map fragmentWarnings).flatten)

/-- `VBAValidator.getImplicitFacets(term)` (identical to
`parseImplicitFacets`: split on `'$'`, drop falsy fragments). -/
def getImplicitFacets (t : Term) : List String :=
  parseImplicitFacets t.implicit_facets

/-- `VBAValidator.checkAndRemoveImplicitFacets`: drop explicit facets already
implicit; report whether anything was removed. -/
def checkAndRemoveImplicitFacets (explicitFacets implicitFacets : List String) :
    List String × Bool :=
  (explicitFacets.filter (fun f => !implicitFacets.contains f),
   explicitFacets.any (fun f => implicitFacets.contains f))

/-- The facet-group-to-hierarchy map of `validateFacetDescriptor`
(`hierarchyMap`, with the JS fallback `groupId.toLowerCase()`). -/
def hierarchyMap (groupId : String) : String :=
  if groupId = "F01" then "source"
  else if groupId = "F02" then "part"
  else if groupId = "F03" then "state"
  else if groupId = "F04" then "ingred"
  else if groupId = "F06" then "medium"
  else if groupId = "F07" then "fat"
  else if groupId = "F08" then "sweet"
  else if groupId = "F09" then "fort"
  else if groupId = "F10" then "qual"
  else if groupId = "F11" then "alcohol"
  else if groupId = "F12" then "dough"
  else if groupId = "F17" then "cookext"
  else if groupId = "F18" then "packformat"
  else if groupId = "F19" then "packmat"
  else if groupId = "F20" then "partcon"
  else if groupId = "F21" then "prod"
  else if groupId = "F22" then "place"
  else if groupId = "F23" then "targcon"
  else if groupId = "F24" then "use"
  else if groupId = "F25" then "riskingred"
  else if groupId = "F26" then "gen"
  else if groupId = "F27" then "racsource"
  else if groupId = "F28" then "process"
  else if groupId = "F29" then "fpurpose"
  else if groupId = "F30" then "replev"
  else if groupId = "F31" then "animage"
  else if groupId = "F32" then "gender"
  else if groupId = "F33" then "legis"
  else if groupId = "F34" then "hostsampled"
  else jsToLower groupId

/-- `VBAValidator.validateFacetDescriptor(facetCode)`: descriptor must exist
in `terms` and belong to the hierarchy mapped to its facet group.  Returns
the keep/drop flag and the warnings pushed. -/
def validateFacetDescriptor (db : DB) (facetCode : String) : Bool × List Warning :=
  let descriptor := facetDescrOf facetCode
  match dbGetTerm db descriptor with
  | none =>
    (false, [{ rule := "VBA-FACET404", severity := .ERROR, wtype := "NOT_FOUND",
               involved := facetCode }])
  | some _ =>
    if belongsToHierarchy db descriptor (hierarchyMap (facetGroupOf facetCode)) then
      (true, [])
    else
      (false, [{ rule := "VBA-CATEGORY", severity := .ERROR,
                 wtype := "WRONG_CATEGORY", involved := facetCode }])

/-- `SINGLE_CARDINALITY_GROUPS` of `vba-validator.js`. -/
def SINGLE_CARDINALITY_GROUPS : List String :=
  ["F01", "F02", "F03", "F07", "F11", "F22", "F24", "F26", "F30", "F32", "F34"]

/-- `VBAValidator.checkSingleCardinalityFacets(facets)`. -/
def checkSingleCardinalityFacets (facets : List String) : List Warning :=
  (firstDedup (facets.map facetGroupOf)).filterMap (fun groupId =>
    if SINGLE_CARDINALITY_GROUPS.contains groupId &&
        1 < (facets.filter (fun f => facetGroupOf f = groupId)).length then
      some { rule := "VBA-CARDINALITY", severity := .HIGH,
             wtype := "CARDINALITY_VIOLATION" }
    else none)

/-- `VBAValidator.checkDuplicateFacets(facets)`. -/
def checkDuplicateFacets (facets : List String) : List Warning :=
  ((firstDedup facets).filter
    (fun f => 1 < (facets.filter (fun g => g = f)).length)).map
    (fun f => { rule := "VBA-DUPLICATE", severity := .HIGH,
                wtype := "DUPLICATE_FACET", involved := f })

/-- `VBAValidator.buildFacetString(facets)`: `#` before the first facet,
`$` before every later one. -/
def buildFacetString (facets : List String) : String :=
  match facets with
  | [] => ""
  | f :: fs => "#" ++ f ++ (fs.map (fun g => "$" ++ g)).foldr (· ++ ·) ""

/-- The result record of `VBAValidator.validateFoodEx2Code` (fields the
claims need; `cleanedFacets` is `[]` on the early-return paths, matching the
callers' `vbaResult.cleanedFacets || []`). -/
structure VResult where
  valid : Bool
  warnings : List Warning
  originalCode : String
  cleanedCode : Option String
  cleanedFacets : List String
  baseTerm : Option Term
deriving DecidableEq, Repr

/-- `VBAValidator.validateFoodEx2Code(baseTermCode, facetString)`:
the nine-step structural pipeline. -/
def validateFoodEx2Code (db : DB) (baseTermCode facetString : String) : VResult :=
  match checkBaseTerm db baseTermCode with
  | (none, w1) =>
    { valid := false, warnings := w1,
      originalCode := baseTermCode ++ facetString,
      cleanedCode := none, cleanedFacets := [], baseTerm := none }
  | (some term, w1) =>
    let facets := parseFacetString facetString
    let w2 := (checkCorrectFacet facets).2
    if !(checkCorrectFacet facets).1 then
      { valid := false, warnings := w1 ++ w2,
        originalCode := baseTermCode ++ facetString,
        cleanedCode := none, cleanedFacets := [], baseTerm := some term }
    else
      let implicitFacets := getImplicitFacets term
      let cleanedFacets := (checkAndRemoveImplicitFacets facets implicitFacets).1
      let implicitRemoved := (checkAndRemoveImplicitFacets facets implicitFacets).2
      let w3 : List Warning :=
        if implicitRemoved then
          [{ rule := "VBA-IMPLICIT", severity := .HIGH,
             wtype := "IMPLICIT_REMOVED" }]
        else []
      let w4 := (cleanedFacets.map (fun f => (validateFacetDescriptor db f).2)).flatten
      let validatedFacets := cleanedFacets.filter
        (fun f => (validateFacetDescriptor db f).1)
      let w5 := checkSingleCardinalityFacets validatedFacets
      let w6 := checkDuplicateFacets validatedFacets
      let allW := w1 ++ w2 ++ w3 ++ w4 ++ w5 ++ w6
      let finalCode := baseTermCode ++ buildFacetString validatedFacets
      { valid := (allW.filter (fun w => w.severity = .ERROR)).length = 0,
        warnings := allW,
        originalCode := baseTermCode ++ facetString,
        cleanedCode := if implicitRemoved then some finalCode else none,
        cleanedFacets := validatedFacets,
        baseTerm := some term }

/-- `FoodEx2Validator.parseFullCode(fullCode)`: base term is the first five
characters, the rest is the facet string. -/
def parseFullCode (fullCode : String) : String × String :=
  if fullCode.toList.length < 5 then (fullCode, "")
  else (String.mk (fullCode.toList.take 5), String.mk (fullCode.toList.drop 5))


/-! ## Warning messages (`data-loader.js`) -/

/-- A rule-message table: rule id to severity
(`DataLoader` message records; texts omitted). -/
def Messages := List (String × Severity)

/-- The severities of `DataLoader.getDefaultWarningMessages()`. -/
def defaultMessages : Messages :=
  [("BR01", .HIGH), ("BR03", .HIGH), ("BR04", .HIGH), ("BR05", .HIGH),
   ("BR06", .HIGH), ("BR07", .HIGH), ("BR08", .HIGH), ("BR10", .LOW),
   ("BR11", .LOW), ("BR12", .LOW), ("BR13", .HIGH), ("BR14", .HIGH),
   ("BR15", .LOW), ("BR16", .HIGH), ("BR17", .HIGH), ("BR19", .HIGH),
   ("BR20", .HIGH), ("BR21", .HIGH), ("BR22", .NONE), ("BR23", .LOW),
   ("BR24", .HIGH), ("BR25", .HIGH), ("BR26", .HIGH), ("BR27", .HIGH),
   ("BR28", .HIGH), ("BR29", .ERROR), ("BR30", .ERROR), ("BR31", .ERROR)]

/-- `BusinessRulesValidator.createWarning(messageId, involvedTerms)`:
message lookup with `HIGH` fallback for an unknown rule id. -/
def createWarning (msgs : Messages) (messageId : String)
    (involvedTerms : String) : Warning :=
  { rule := messageId,
    severity := ((msgs.find? (fun m => m.1 = messageId)).map Prod.snd).getD .HIGH,
    wtype := "BUSINESS_RULE",
    involved := involvedTerms }

/-! ## Business rules (`business-rules-validator.js`) -/

/-- `BusinessRulesValidator.getForbiddenProcesses(termCode)`: forbidden
process codes of the term and of its ancestors in the `report` hierarchy,
de-duplicated. -/
def getForbiddenProcesses (db : DB) (fps : List ForbiddenProcess)
    (termCode : String) : List String :=
  let ancestors := getAncestors db termCode "report" ++ [termCode]
  firstDedup ((ancestors.map (fun a =>
    (fps.filter (fun fp => fp.rootGroupCode = a)).map
      (fun fp => fp.forbiddenProcessCode))).flatten)

/-- `BusinessRulesValidator.getProcessOrdinalCode(termCode, processCode)`:
ordinal of the first matching forbidden-process record over the term and its
`report`-hierarchy ancestors; `0` when absent. -/
def getProcessOrdinalCode (db : DB) (fps : List ForbiddenProcess)
    (termCode processCode : String) : Rat :=
  let ancestors := getAncestors db termCode "report" ++ [termCode]
  ((ancestors.findSome? (fun a =>
    (fps.find? (fun fp =>
      fp.rootGroupCode = a && fp.forbiddenProcessCode = processCode)).map
      (fun fp => fp.ordinalCode)))).getD 0

/-- `BusinessRulesValidator.getProcessesWithOrdinalCodes`: implicit then
explicit `F28` facets with their ordinal codes (`ordinalCode || 0`). -/
def getProcessesWithOrdinalCodes (db : DB) (fps : List ForbiddenProcess)
    (baseTerm : Term) (explicitFacets : List String) : List ProcInfo :=
  let implicitProcs :=
    ((parseImplicitFacets baseTerm.implicit_facets).filter
      (fun f => jsStartsWith f "F28.")).map (fun f =>
        { code := facetDescrOf f,
          ordinalCode := getProcessOrdinalCode db fps baseTerm.code (facetDescrOf f),
          isImplicit := true : ProcInfo })
  let explicitProcs :=
    ((explicitFacets.filter (fun f => jsStartsWith f "F28.")).map (fun f =>
        { code := facetDescrOf f,
          ordinalCode := getProcessOrdinalCode db fps baseTerm.code (facetDescrOf f),
          isImplicit := false : ProcInfo }))
  implicitProcs ++ explicitProcs

/-- `checkBR01`: explicit `F27` on a raw commodity must descend from an
implicit `F27` or from the base term in `racsource`. -/
def checkBR01 (msgs : Messages) (db : DB) (baseTerm : Term)
    (explicitFacets : List String) : List Warning :=
  if !isRawCommodity baseTerm then []
  else
    let implicitF27 :=
      ((parseImplicitFacets baseTerm.implicit_facets).filter
        (fun f => jsStartsWith f "F27.")).map facetDescrOf
    (explicitFacets.filter (fun f => jsStartsWith f "F27.")).filterMap (fun f =>
      if isChildOfAny db (facetDescrOf f) (implicitF27 ++ [baseTerm.code])
          "racsource" then none
      else some (createWarning msgs "BR01" (facetDescrOf f)))

/-- `checkBR03`: no explicit `F01` on composite foods. -/
def checkBR03 (msgs : Messages) (baseTerm : Term)
    (explicitFacets : List String) : List Warning :=
  if isComposite baseTerm && explicitFacets.any (fun f => jsStartsWith f "F01.")
  then [createWarning msgs "BR03" baseTerm.code] else []

/-- `checkBR04`: no explicit `F27` on composite foods. -/
def checkBR04 (msgs : Messages) (baseTerm : Term)
    (explicitFacets : List String) : List Warning :=
  if isComposite baseTerm && explicitFacets.any (fun f => jsStartsWith f "F27.")
  then [createWarning msgs "BR04" baseTerm.code] else []

/-- `checkBR05`: explicit `F27` on a derivative must refine an implicit
`F27` in `racsource` (warned only when an implicit `F27` exists). -/
def checkBR05 (msgs : Messages) (db : DB) (baseTerm : Term)
    (explicitFacets : List String) : List Warning :=
  if !isDerivative baseTerm then []
  else
    let implicitF27 :=
      (parseImplicitFacets baseTerm.implicit_facets).filter
        (fun f => jsStartsWith f "F27.")
    (explicitFacets.filter (fun f => jsStartsWith f "F27.")).filterMap (fun f =>
      if implicitF27.any (fun im =>
          isChildOf db (facetDescrOf f) (facetDescrOf im) "racsource") then none
      else if implicitF27.length ≠ 0 then some (createWarning msgs "BR05" f)
      else none)

/-- `checkBR06`: explicit `F01` on a derivative requires an `F27`
(implicit or explicit). -/
def checkBR06 (msgs : Messages) (baseTerm : Term)
    (explicitFacets : List String) : List Warning :=
  if !isDerivative baseTerm then []
  else if !explicitFacets.any (fun f => jsStartsWith f "F01.") then []
  else
    let implicitF27 :=
      (parseImplicitFacets baseTerm.implicit_facets).filter
        (fun f => jsStartsWith f "F27.")
    let explicitF27 := explicitFacets.filter (fun f => jsStartsWith f "F27.")
    if implicitF27.length = 0 && explicitF27.length = 0 then
      [createWarning msgs "BR06" baseTerm.code]
    else []

/-- `checkBR07`: explicit `F01` on a derivative allows at most one `F27`
in total. -/
def checkBR07 (msgs : Messages) (baseTerm : Term)
    (explicitFacets : List String) : List Warning :=
  if !isDerivative baseTerm then []
  else if !explicitFacets.any (fun f => jsStartsWith f "F01.") then []
  else
    let implicitF27 :=
      (parseImplicitFacets baseTerm.implicit_facets).filter
        (fun f => jsStartsWith f "F27.")
    let explicitF27 := explicitFacets.filter (fun f => jsStartsWith f "F27.")
    if 1 < implicitF27.length + explicitF27.length then
      [createWarning msgs "BR07" baseTerm.code]
    else []

/-- `checkBR08`: a non-dismissed base term must belong to the `report`
hierarchy. -/
def checkBR08 (msgs : Messages) (db : DB) (baseTerm : Term) : List Warning :=
  if baseTerm.dismissed then []
  else if belongsToHierarchy db baseTerm.code "report" then []
  else [createWarning msgs "BR08" baseTerm.code]

/-- `checkBR10`: non-specific base terms are discouraged. -/
def checkBR10 (msgs : Messages) (baseTerm : Term) : List Warning :=
  if isNonSpecific baseTerm then [createWarning msgs "BR10" baseTerm.code]
  else []

/-- `checkBR11`: explicit `F28` equal to or descending from the generic
`Processed` term `A07XS` in `process`. -/
def checkBR11 (msgs : Messages) (db : DB)
    (explicitFacets : List String) : List Warning :=
  (explicitFacets.filter (fun f => jsStartsWith f "F28.")).filterMap (fun f =>
    if ["A07XS"].any (fun generic =>
        facetDescrOf f = generic ||
        isChildOf db (facetDescrOf f) generic "process") then
      some (createWarning msgs "BR11" (facetDescrOf f))
    else none)

/-- `checkBR12`: explicit `F04` on non-composites must refine an implicit
`F04` in `ingred` (warned only when an implicit `F04` exists). -/
def checkBR12 (msgs : Messages) (db : DB) (baseTerm : Term)
    (explicitFacets : List String) : List Warning :=
  (explicitFacets.filter (fun f => jsStartsWith f "F04.")).filterMap (fun f =>
    if isComposite baseTerm then none
    else
      let implicitF04 :=
        (parseImplicitFacets baseTerm.implicit_facets).filter
          (fun g => jsStartsWith g "F04.")
      if implicitF04.any (fun im =>
          isChildOf db (facetDescrOf f) (facetDescrOf im) "ingred") then none
      else if implicitF04.length ≠ 0 then some (createWarning msgs "BR12" f)
      else none)

/-- The literal derivative-creating physical states of `checkBR13`. -/
def forbiddenPhysicalStates : List String :=
  ["A0C0D", "A0C0E", "A0C0F", "A0C0G", "A0C0H"]

/-- `checkBR13`: those `F03` states on raw commodities create derivatives. -/
def checkBR13 (msgs : Messages) (baseTerm : Term)
    (explicitFacets : List String) : List Warning :=
  if !isRawCommodity baseTerm then []
  else
    (explicitFacets.filter (fun f => jsStartsWith f "F03.")).filterMap (fun f =>
      if forbiddenPhysicalStates.contains (facetDescrOf f) then
        some (createWarning msgs "BR13" baseTerm.code)
      else none)

/-- `checkBR16`: an explicit facet that is an ancestor (`isParentOf`) of an
implicit facet of the same group, and not its sibling, is less detailed.
The hierarchy interrogated is `facetGroup.toLowerCase()` (e.g. `"f01"`),
not the hierarchy of the facet-group-to-hierarchy map. -/
def checkBR16 (msgs : Messages) (db : DB) (baseTerm : Term)
    (explicitFacets : List String) : List Warning :=
  let implicitFacets := parseImplicitFacets baseTerm.implicit_facets
  explicitFacets.filterMap (fun ex =>
    let facetGroup := facetGroupOf ex
    let facetCode := facetDescrOf ex
    if facetGroup = "" || facetCode = "" then none
    else
      let matchingImplicit :=
        (implicitFacets.filter (fun f => jsStartsWith f (facetGroup ++ "."))).map
          facetDescrOf
      if matchingImplicit.any (fun implicitCode =>
          !areSiblings db facetCode implicitCode (jsToLower facetGroup) &&
          isParentOf db facetCode implicitCode (jsToLower facetGroup)) then
        some (createWarning msgs "BR16" facetCode)
      else none)

/-- `checkBR17`: facet terms cannot be base terms. -/
def checkBR17 (msgs : Messages) (baseTerm : Term) : List Warning :=
  if isFacetTerm baseTerm then [createWarning msgs "BR17" baseTerm.code]
  else []

/-- `checkBR19`: explicit `F28` processes on a raw commodity that appear in
the forbidden-process set of the base term. -/
def checkBR19 (msgs : Messages) (db : DB) (fps : List ForbiddenProcess)
    (baseTerm : Term) (explicitFacets : List String) : List Warning :=
  if !isRawCommodity baseTerm then []
  else
    let forbiddenForTerm := getForbiddenProcesses db fps baseTerm.code
    (explicitFacets.filter (fun f => jsStartsWith f "F28.")).filterMap (fun f =>
      if forbiddenForTerm.contains (facetDescrOf f) then
        some (createWarning msgs "BR19" (facetDescrOf f))
      else none)

/-- `checkBR20`: deprecated base term. -/
def checkBR20 (msgs : Messages) (baseTerm : Term) : List Warning :=
  if baseTerm.deprecated then [createWarning msgs "BR20" baseTerm.code] else []

/-- `checkBR21`: dismissed base term. -/
def checkBR21 (msgs : Messages) (baseTerm : Term) : List Warning :=
  if baseTerm.dismissed then [createWarning msgs "BR21" baseTerm.code] else []

/-- `checkBR22`: success message when no `HIGH`/`ERROR` warning accumulated
so far and the base is not a hierarchy term. -/
def checkBR22 (msgs : Messages) (baseTerm : Term)
    (warningsSoFar : List Warning) : List Warning :=
  if !warningsSoFar.any (fun w => w.severity = .HIGH || w.severity = .ERROR) &&
      !isHierarchyTerm baseTerm then
    [createWarning msgs "BR22" baseTerm.code]
  else []

/-- `checkBR23`: hierarchy base term inside the exposure hierarchy. -/
def checkBR23 (msgs : Messages) (db : DB) (baseTerm : Term) : List Warning :=
  if isHierarchyTerm baseTerm && belongsToHierarchy db baseTerm.code "expo" then
    [createWarning msgs "BR23" baseTerm.code]
  else []

/-- `checkBR24`: hierarchy base term outside the exposure hierarchy. -/
def checkBR24 (msgs : Messages) (db : DB) (baseTerm : Term) : List Warning :=
  if isHierarchyTerm baseTerm && !belongsToHierarchy db baseTerm.code "expo" then
    [createWarning msgs "BR24" baseTerm.code]
  else []

/-- `checkBR25`: single-cardinality facet categories (the rule-evaluator
copy, with its own group list). -/
def checkBR25 (msgs : Messages) (explicitFacets : List String) : List Warning :=
  (firstDedup (explicitFacets.map facetGroupOf)).filterMap (fun group =>
    if SINGLE_CARDINALITY_GROUPS.contains group &&
        1 < (explicitFacets.filter (fun f => facetGroupOf f = group)).length then
      some (createWarning msgs "BR25" group)
    else none)

/-- `checkBR26`: on a derivative, group the `F28` processes (implicit and
explicit) by ordinal code, ignoring ordinal `0`; each group with at least
two members yields a warning. -/
def checkBR26 (msgs : Messages) (db : DB) (fps : List ForbiddenProcess)
    (baseTerm : Term) (explicitFacets : List String) : List Warning :=
  if !isDerivative baseTerm then []
  else
    let processes := getProcessesWithOrdinalCodes db fps baseTerm explicitFacets
    let nonzero := processes.filter (fun p => p.ordinalCode ≠ 0)
    (firstDedup (nonzero.map (fun p => p.ordinalCode))).filterMap (fun ordinal =>
      let codes := (nonzero.filter (fun p => p.ordinalCode = ordinal)).map
        (fun p => p.code)
      if 1 < codes.length then
        some (createWarning msgs "BR26" (joinWith " - " codes))
      else none)

/-- `checkBR27`: on a derivative, group the fractional-ordinal `F28`
processes by the integer part of their ordinal; warn when a group mixes
implicit and explicit, or holds several explicit ones. -/
def checkBR27 (msgs : Messages) (db : DB) (fps : List ForbiddenProcess)
    (baseTerm : Term) (explicitFacets : List String) : List Warning :=
  if !isDerivative baseTerm then []
  else
    let processes := getProcessesWithOrdinalCodes db fps baseTerm explicitFacets
    let decimalProcesses := processes.filter (fun p => p.ordinalCode.den ≠ 1)
    (firstDedup (decimalProcesses.map (fun p => p.ordinalCode.floor))).filterMap
      (fun intPart =>
        let procs := decimalProcesses.filter
          (fun p => p.ordinalCode.floor = intPart)
        let hasImplicit := procs.any (fun p => p.isImplicit)
        let hasExplicit := procs.any (fun p => !p.isImplicit)
        if (hasImplicit && hasExplicit && 1 < procs.length) ||
            (!hasImplicit &&
              1 < (procs.filter (fun p => !p.isImplicit)).length) then
          some (createWarning msgs "BR27"
            (joinWith " - " ((procs.filter (fun p => !p.isImplicit)).map
              (fun p => p.code))))
        else none)

/-- The explicit `F28` descriptors `checkBR28` flags
(`Reconstitution`, `Dilution`). -/
def reconstitutionProcesses : List String := ["A07MR", "A07MQ"]

/-- `checkBR28`: reconstitution or dilution on a base whose name indicates a
concentrate/powder/dried/dehydrated food.  No implicit-facet dehydration
test is performed. -/
def checkBR28 (msgs : Messages) (baseTerm : Term)
    (explicitFacets : List String) : List Warning :=
  if !isConcentrateOrPowder baseTerm then []
  else
    (explicitFacets.filter (fun f => jsStartsWith f "F28.")).filterMap (fun f =>
      if reconstitutionProcesses.contains (facetDescrOf f) then
        some (createWarning msgs "BR28" (facetDescrOf f))
      else none)

/-- `BusinessRulesValidator.validateBusinessRules(baseTerm, explicitFacets,
context)`: all rules in id order; `checkBR22` inspects the warnings
accumulated before it; `checkBR14`/`checkBR15` are empty placeholders. -/
def validateBusinessRules (msgs : Messages) (db : DB)
    (fps : List ForbiddenProcess) (baseTerm : Term)
    (explicitFacets : List String) : List Warning :=
  let w := checkBR01 msgs db baseTerm explicitFacets
  let w := w ++ checkBR03 msgs baseTerm explicitFacets
  let w := w ++ checkBR04 msgs baseTerm explicitFacets
  let w := w ++ checkBR05 msgs db baseTerm explicitFacets
  let w := w ++ checkBR06 msgs baseTerm explicitFacets
  let w := w ++ checkBR07 msgs baseTerm explicitFacets
  let w := w ++ checkBR08 msgs db baseTerm
  let w := w ++ checkBR10 msgs baseTerm
  let w := w ++ checkBR11 msgs db explicitFacets
  let w := w ++ checkBR12 msgs db baseTerm explicitFacets
  let w := w ++ checkBR13 msgs baseTerm explicitFacets
  let w := w ++ checkBR16 msgs db baseTerm explicitFacets
  let w := w ++ checkBR17 msgs baseTerm
  let w := w ++ checkBR19 msgs db fps baseTerm explicitFacets
  let w := w ++ checkBR20 msgs baseTerm
  let w := w ++ checkBR21 msgs baseTerm
  let w := w ++ checkBR22 msgs baseTerm w
  let w := w ++ checkBR23 msgs db baseTerm
  let w := w ++ checkBR24 msgs db baseTerm
  let w := w ++ checkBR25 msgs explicitFacets
  let w := w ++ checkBR26 msgs db fps baseTerm explicitFacets
  let w := w ++ checkBR27 msgs db fps baseTerm explicitFacets
  let w := w ++ checkBR28 msgs baseTerm explicitFacets
  w

/-! ## Soft rules (`soft-rules-validator.js`) -/

/-- `SoftRulesValidator.createSoftWarning(ruleId, involvedTerms)`:
severity is always `NONE`. -/
def createSoftWarning (ruleId : String) (involvedTerms : String) : Warning :=
  { rule := ruleId, severity := .NONE, wtype := "INFO",
    involved := involvedTerms }

/-- `SoftRulesValidator.isGenericTerm(baseTerm)`: name-pattern heuristic. -/
def isGenericTerm (baseTerm : Term) : Bool :=
  ["other", "unspecified", "not otherwise", "n.o.s", "generic",
   "miscellaneous", "various", "mixed", "assorted"].any
    (fun pattern => strContains (jsToLower baseTerm.name) pattern)

/-- `SoftRulesValidator.isAdditivesMatrix(baseTerm)`. -/
def isAdditivesMatrix (baseTerm : Term) : Bool :=
  ["beverage", "sauce", "confection", "candy", "sweet", "flavour"].any
    (fun pattern => strContains (jsToLower baseTerm.name) pattern)

/-- `SoftRulesValidator.isVMPRDerivative(baseTerm)`. -/
def isVMPRDerivative (baseTerm : Term) : Bool :=
  ["milk powder", "dried milk", "cheese", "yogurt", "butter",
   "egg powder", "dried egg", "egg white", "egg yolk"].any
    (fun pattern => strContains (jsToLower baseTerm.name) pattern)

/-- `SoftRulesValidator.isHighTempProcessedFood(baseTerm)`. -/
def isHighTempProcessedFood (baseTerm : Term) : Bool :=
  ["baked", "fried", "roasted", "toasted", "grilled",
   "bakery", "bread", "biscuit", "cookie", "cracker",
   "potato chip", "french fr", "crisp", "coffee"].any
    (fun pattern => strContains (jsToLower baseTerm.name) pattern)

/-- `checkSR1`: generic base term without the `F26.A07XE` flag. -/
def checkSR1 (baseTerm : Term) (explicitFacets : List String) : List Warning :=
  if isGenericTerm baseTerm &&
      !explicitFacets.any (fun f => f = "F26.A07XE") then
    [createSoftWarning "SR1" baseTerm.code]
  else []

/-- `checkSR2`: generic or multiply-refined expression without free text
(the validator passes no text, so `textInfo` is empty). -/
def checkSR2 (baseTerm : Term) (explicitFacets : List String) : List Warning :=
  if isGenericTerm baseTerm ||
      1 < (explicitFacets.filter (fun f =>
        jsStartsWith f "F27." || jsStartsWith f "F04.")).length then
    [createSoftWarning "SR2" baseTerm.code]
  else []

/-- `checkSR3`: `F04` on a raw commodity or derivative. -/
def checkSR3 (baseTerm : Term) (explicitFacets : List String) : List Warning :=
  if (isRawCommodity baseTerm || isDerivative baseTerm) &&
      explicitFacets.any (fun f => jsStartsWith f "F04.") then
    [createSoftWarning "SR3" baseTerm.code]
  else []

/-- `checkSR4`: several `F01` facets on a raw commodity. -/
def checkSR4 (baseTerm : Term) (explicitFacets : List String) : List Warning :=
  if isRawCommodity baseTerm &&
      explicitFacets.any (fun f => jsStartsWith f "F01.") &&
      1 < (explicitFacets.filter (fun f => jsStartsWith f "F01.")).length then
    [createSoftWarning "SR4" baseTerm.code]
  else []

/-- The mechanical process codes of `checkSR5`. -/
def mechanicalProcesses : List String :=
  ["A0CRK", "A07KY", "A0BYT", "A0C0N", "A0DQP"]

/-- `checkSR5`: mechanical `F28` process without an `F03` state (one
warning at most, for the first such process). -/
def checkSR5 (explicitFacets : List String) : List Warning :=
  let hasF03 := explicitFacets.any (fun f => jsStartsWith f "F03.")
  match (explicitFacets.filter (fun f => jsStartsWith f "F28.")).find?
      (fun f => mechanicalProcesses.contains (facetDescrOf f) && !hasF03) with
  | some f => [createSoftWarning "SR5" (facetDescrOf f)]
  | none => []

/-- `checkSR6`: additive/flavouring matrices without `F33` or `F03`
(explicit or implicit). -/
def checkSR6 (baseTerm : Term) (explicitFacets : List String) : List Warning :=
  if isAdditivesMatrix baseTerm &&
      !explicitFacets.any (fun f => jsStartsWith f "F33.") &&
      !explicitFacets.any (fun f => jsStartsWith f "F03.") &&
      !(parseImplicitFacets baseTerm.implicit_facets).any
        (fun f => jsStartsWith f "F03.") then
    [createSoftWarning "SR6" baseTerm.code]
  else []

/-- `checkSR7`: VMPR derivative without an `F01` (explicit or implicit). -/
def checkSR7 (baseTerm : Term) (explicitFacets : List String) : List Warning :=
  if isDerivative baseTerm && isVMPRDerivative baseTerm &&
      !explicitFacets.any (fun f => jsStartsWith f "F01.") &&
      !(parseImplicitFacets baseTerm.implicit_facets).any
        (fun f => jsStartsWith f "F01.") then
    [createSoftWarning "SR7" baseTerm.code]
  else []

/-- `checkSR8`: high-temperature processed food without `F17`. -/
def checkSR8 (baseTerm : Term) (explicitFacets : List String) : List Warning :=
  if isHighTempProcessedFood baseTerm &&
      !explicitFacets.any (fun f => jsStartsWith f "F17.") then
    [createSoftWarning "SR8" baseTerm.code]
  else []

/-- `SoftRulesValidator.validateSoftRules(baseTerm, explicitFacets)`. -/
def validateSoftRules (baseTerm : Term)
    (explicitFacets : List String) : List Warning :=
  checkSR1 baseTerm explicitFacets ++ checkSR2 baseTerm explicitFacets ++
  checkSR3 baseTerm explicitFacets ++ checkSR4 baseTerm explicitFacets ++
  checkSR5 explicitFacets ++ checkSR6 baseTerm explicitFacets ++
  checkSR7 baseTerm explicitFacets ++ checkSR8 baseTerm explicitFacets

/-! ## Result aggregation (`foodex2-validator.js`) -/

/-- Validator options (`FoodEx2Validator` constructor).  All flags default
to `false` in the constructor; `skipVBAValidation` is not modelled (every
claim is about the default configuration, where it is `false`). -/
structure Options where
  context : String := "ICT"
  stopOnStructuralError : Bool := false
  allowHighWarnings : Bool := false
  skipBusinessRules : Bool := false
  skipSoftRules : Bool := false
deriving DecidableEq, Repr

/-- The options of a `FoodEx2Validator` built with no explicit flags
(in particular the validator the service creates at startup). -/
def defaultOptions : Options := {}

/-- `formatResult`'s blocking-issue test: some warning is `ERROR` or
`HIGH`. -/
def hasBlockingIssues (ws : List Warning) : Bool :=
  ws.any (fun w => w.severity = .ERROR || w.severity = .HIGH)

/-- `FoodEx2Validator.getOverallSeverity(warnings)`. -/
def getOverallSeverity (ws : List Warning) : Severity :=
  if ws.any (fun w => w.severity = .ERROR) then .ERROR
  else if ws.any (fun w => w.severity = .HIGH) then .HIGH
  else if ws.any (fun w => w.severity = .LOW) then .LOW
  else .NONE

/-- The `valid` computation of the legacy `FoodEx2Validator.formatResult`:
no `ERROR`, and no `HIGH` unless `allowHighWarnings`. -/
def legacyFormatValid (allowHighWarnings : Bool) (ws : List Warning) : Bool :=
  !ws.any (fun w => w.severity = .ERROR) &&
    (!ws.any (fun w => w.severity = .HIGH) || allowHighWarnings)

/-- The final result record of `FoodEx2Validator.formatResult`. -/
structure FinalResult where
  valid : Bool
  originalCode : String
  cleanedCode : Option String
  baseTerm : Option Term
  facets : List String
  warnings : List Warning
  severity : Severity
deriving DecidableEq, Repr

/-- `FoodEx2Validator.formatResult(vbaResult, brResult, srResult)`:
concatenate the warnings; `valid` iff no `ERROR`/`HIGH` warning. -/
def formatResult (vbaResult : VResult)
    (brWarnings srWarnings : Option (List Warning)) : FinalResult :=
  let allWarnings := vbaResult.warnings ++ brWarnings.getD [] ++ srWarnings.getD []
  { valid := !hasBlockingIssues allWarnings,
    originalCode := vbaResult.originalCode,
    cleanedCode := vbaResult.cleanedCode,
    baseTerm := vbaResult.baseTerm,
    facets := vbaResult.cleanedFacets,
    warnings := allWarnings,
    severity := getOverallSeverity allWarnings }

/-- `FoodEx2Validator.runBusinessRulesValidation(baseTerm, facets)`. -/
def runBusinessRulesValidation (opts : Options) (msgs : Messages) (db : DB)
    (fps : List ForbiddenProcess) (baseTerm : Option Term)
    (facets : List String) : List Warning :=
  match baseTerm with
  | none => []
  | some term =>
    if opts.skipBusinessRules then []
    else validateBusinessRules msgs db fps term facets

/-- `FoodEx2Validator.runSoftRulesValidation(baseTerm, facets)`. -/
def runSoftRulesValidation (opts : Options) (baseTerm : Option Term)
    (facets : List String) : List Warning :=
  match baseTerm with
  | none => []
  | some term =>
    if opts.skipSoftRules then []
    else validateSoftRules term facets

/-- `FoodEx2Validator.validateCode(fullCode)`: parse, structural validation,
optional early return on a structural error, business rules, soft rules,
aggregation. -/
def validateCode (opts : Options) (msgs : Messages) (db : DB)
    (fps : List ForbiddenProcess) (fullCode : String) : FinalResult :=
  let vbaResult := validateFoodEx2Code db (parseFullCode fullCode).1
    (parseFullCode fullCode).2
  if !vbaResult.valid && opts.stopOnStructuralError then
    formatResult vbaResult none none
  else
    let brWarnings := runBusinessRulesValidation opts msgs db fps
      vbaResult.baseTerm vbaResult.cleanedFacets
    let srWarnings := runSoftRulesValidation opts vbaResult.baseTerm
      vbaResult.cleanedFacets
    formatResult vbaResult (some brWarnings) (some srWarnings)

/-! ## Service layer (`foodex2-service.js`) -/

/-- `FoodEx2Service.validateCode(code, options)`: the service computes
`validatorOptions` with `stopOnStructuralError` defaulting to `true`, but
applies them only when a non-`ICT` context is requested; otherwise it reuses
the startup validator, which was created without those flags. -/
def serviceValidateCode (msgs : Messages) (db : DB)
    (fps : List ForbiddenProcess) (reqContext : Option String)
    (reqStop : Option Bool) (fullCode : String) : FinalResult :=
  let validatorOptions : Options :=
    { context := reqContext.getD "ICT",
      stopOnStructuralError := reqStop.getD true,
      allowHighWarnings := false }
  match reqContext with
  | some c =>
    if c ≠ "ICT" then validateCode validatorOptions msgs db fps fullCode
    else validateCode defaultOptions msgs db fps fullCode
  | none => validateCode defaultOptions msgs db fps fullCode

/-! ## Spec-side definitions

These definitions follow the specification text word for word; they are
compared against the code-derived definitions above. -/

/-- The fragment acceptance condition in the spec's words: exactly one `.`,
the left side matches `^F\d{2}$`, the right side matches `^[A-Z0-9]{5}$`. -/
def specFragmentOK (f : String) : Bool :=
  f.toList.count '.' = 1 &&
  isFacetGroupCode (String.mk (f.toList.takeWhile (fun c => !(c = '.')))) &&
  isTermCode (String.mk ((f.toList.dropWhile (fun c => !(c = '.'))).drop 1))

/-- The BR16 trigger in the spec's words: some explicit facet of group `G`
whose descriptor is an ancestor of an implicit descriptor of the same `G`
in the hierarchy *assigned to `G`* (the facet-group-to-hierarchy map), the
two not being siblings there. -/
def br16SpecTrigger (db : DB) (baseTerm : Term)
    (explicitFacets : List String) : Bool :=
  explicitFacets.any (fun ex =>
    (parseImplicitFacets baseTerm.implicit_facets).any (fun im =>
      jsStartsWith im (facetGroupOf ex ++ ".") &&
      isParentOf db (facetDescrOf ex) (facetDescrOf im)
        (hierarchyMap (facetGroupOf ex)) &&
      !areSiblings db (facetDescrOf ex) (facetDescrOf im)
        (hierarchyMap (facetGroupOf ex))))

/-- The BR26 trigger in the spec's words: the base is a derivative, at least
two `F28` facets (implicit or explicit) share the same non-zero integer
ordinal code, and at least one of them is explicit. -/
def br26SpecTrigger (db : DB) (fps : List ForbiddenProcess) (baseTerm : Term)
    (explicitFacets : List String) : Bool :=
  isDerivative baseTerm &&
    (let processes := getProcessesWithOrdinalCodes db fps baseTerm explicitFacets
     processes.any (fun p =>
       p.ordinalCode ≠ 0 && p.ordinalCode.den = 1 &&
       1 < (processes.filter (fun q => q.ordinalCode = p.ordinalCode)).length &&
       (processes.filter (fun q => q.ordinalCode = p.ordinalCode)).any
         (fun q => !q.isImplicit)))

/-- The BR28 trigger in the spec's words, parametric in the catalogue's
dehydration set `dehydrationSet`: the base name matches a dehydration word
OR the base has an implicit `F28` descriptor in the dehydration set; and an
explicit `F28` descriptor is a reconstitution or dilution. -/
def br28SpecTrigger (dehydrationSet : List String) (baseTerm : Term)
    (explicitFacets : List String) : Bool :=
  (isConcentrateOrPowder baseTerm ||
    (parseImplicitFacets baseTerm.implicit_facets).any (fun im =>
      jsStartsWith im "F28." && dehydrationSet.contains (facetDescrOf im))) &&
  explicitFacets.any (fun f =>
    jsStartsWith f "F28." && reconstitutionProcesses.contains (facetDescrOf f))

/-- The structural (VBA) result `validateCode` computes for a full code. -/
def vbaResultOf (db : DB) (fullCode : String) : VResult :=
  validateFoodEx2Code db (parseFullCode fullCode).1 (parseFullCode fullCode).2

/-- The structural plus business-rule warnings `validateCode` accumulates
for a full code under the default configuration (soft-rule warnings
excluded). -/
def structuralAndBusinessWarnings (msgs : Messages) (db : DB)
    (fps : List ForbiddenProcess) (fullCode : String) : List Warning :=
  (vbaResultOf db fullCode).warnings ++
    runBusinessRulesValidation defaultOptions msgs db fps
      (vbaResultOf db fullCode).baseTerm (vbaResultOf db fullCode).cleanedFacets

/-! ## Concrete example catalogues for witnesses and counterexamples -/

/-- An approved raw-commodity term with no implicit facets. -/
def exTermA : Term :=
  { code := "AAAAA", name := "Test food", term_type := "r", detail_level := "",
    deprecated := false, dismissed := false, implicit_facets := "" }

/-- A catalogue holding `exTermA` inside the `report` and `expo`
hierarchies. -/
def exDBA : DB :=
  { terms := [exTermA],
    term_hierarchies := [⟨"AAAAA", "report", none⟩, ⟨"AAAAA", "expo", none⟩] }

/-- A derivative whose implicit facets carry two `F28` processes. -/
def exBaseD : Term :=
  { code := "DDDDD", name := "Deriv", term_type := "d", detail_level := "",
    deprecated := false, dismissed := false,
    implicit_facets := "F28.PPPP1$F28.PPPP2" }

/-- A catalogue holding only `exBaseD`. -/
def exDBD : DB := { terms := [exBaseD], term_hierarchies := [] }

/-- Forbidden-process records giving both implicit processes of `exBaseD`
the integer ordinal `1`. -/
def exFPSD : List ForbiddenProcess :=
  [⟨"DDDDD", "PPPP1", 1⟩, ⟨"DDDDD", "PPPP2", 1⟩]

/-- A raw-commodity base with one implicit `F01` facet. -/
def exBaseS : Term :=
  { code := "BBBBB", name := "Base food", term_type := "r", detail_level := "",
    deprecated := false, dismissed := false, implicit_facets := "F01.CCCCC" }

/-- A catalogue where `PPPPP` is the `source`-hierarchy parent of the
implicit descriptor `CCCCC` (the hierarchy assigned to `F01`). -/
def exDBS : DB :=
  { terms := [exBaseS],
    term_hierarchies := [⟨"CCCCC", "source", some "PPPPP"⟩,
                         ⟨"PPPPP", "source", none⟩] }

/-- A catalogue where `PPPPP` is the parent of `CCCCC` inside a hierarchy
literally named `f01` (the lowercased group id the code interrogates). -/
def exDBS2 : DB :=
  { terms := [exBaseS],
    term_hierarchies := [⟨"CCCCC", "f01", some "PPPPP"⟩,
                         ⟨"PPPPP", "f01", none⟩] }

/-- A base term named `Milk` (no dehydration word) with an implicit `F28`
descriptor `A07GE`. -/
def exBaseM : Term :=
  { code := "MMMMM", name := "Milk", term_type := "d", detail_level := "",
    deprecated := false, dismissed := false, implicit_facets := "F28.A07GE" }

/-- A concentrate-named derivative base term. -/
def exBaseK : Term :=
  { code := "KKKKK", name := "Milk concentrate", term_type := "d",
    detail_level := "", deprecated := false, dismissed := false,
    implicit_facets := "" }

/-- A raw commodity whose `report`-hierarchy parent is the group `GGGGG`. -/
def exBaseR : Term :=
  { code := "RRRRR", name := "Raw food", term_type := "r", detail_level := "",
    deprecated := false, dismissed := false, implicit_facets := "" }

/-- A catalogue where `RRRRR` sits below `GGGGG` in the `report`
hierarchy. -/
def exDBR : DB :=
  { terms := [exBaseR],
    term_hierarchies := [⟨"RRRRR", "report", some "GGGGG"⟩,
                         ⟨"GGGGG", "report", none⟩] }

/-- A forbidden-process record attached to the ancestor `GGGGG`. -/
def exFPSR : List ForbiddenProcess := [⟨"GGGGG", "A07LG", 0⟩]

/-- A catalogue with a base term and a facet descriptor `DDDDD` that is a
member of the `process` hierarchy. -/
def exDBV : DB :=
  { terms := [exTermA,
      { code := "DDDDD", name := "Some process", term_type := "f",
        detail_level := "", deprecated := false, dismissed := false,
        implicit_facets := "" }],
    term_hierarchies := [⟨"AAAAA", "report", none⟩, ⟨"AAAAA", "expo", none⟩,
                         ⟨"DDDDD", "process", none⟩] }

/-! ## Helper lemmas -/

theorem filterMap_ne_nil_iff {α β : Type} (f : α → Option β) (l : List α) :
    l.filterMap f ≠ [] ↔ ∃ a ∈ l, (f a).isSome := by
  rw [ne_eq, List.filterMap_eq_nil_iff]
  push_neg
  constructor
  · rintro ⟨a, ha, hf⟩
    exact ⟨a, ha, Option.isSome_iff_ne_none.mpr hf⟩
  · rintro ⟨a, ha, hf⟩
    exact ⟨a, ha, Option.isSome_iff_ne_none.mp hf⟩

theorem mem_firstDedupAux {α : Type} [DecidableEq α] (a : α) :
    ∀ (l seen : List α), a ∈ firstDedupAux seen l ↔ a ∈ l ∧ a ∉ seen := by
  intro l
  induction l with
  | nil => intro seen; simp [firstDedupAux]
  | cons b bs ih =>
    intro seen
    by_cases hb : b ∈ seen
    · rw [firstDedupAux, if_pos hb, ih]
      constructor
      · rintro ⟨h1, h2⟩
        exact ⟨List.mem_cons_of_mem b h1, h2⟩
      · rintro ⟨h1, h2⟩
        rcases List.mem_cons.mp h1 with rfl | h1
        · exact absurd hb h2
        · exact ⟨h1, h2⟩
    · rw [firstDedupAux, if_neg hb]
      constructor
      · intro h
        rcases List.mem_cons.mp h with rfl | h
        · exact ⟨List.mem_cons_self a bs, hb⟩
        · obtain ⟨h1, h2⟩ := (ih (b :: seen)).mp h
          exact ⟨List.mem_cons_of_mem b h1,
            fun hs => h2 (List.mem_cons_of_mem b hs)⟩
      · rintro ⟨h1, h2⟩
        rcases List.mem_cons.mp h1 with rfl | h1
        · exact List.mem_cons_self a _
        · by_cases hab : a = b
          · subst hab; exact List.mem_cons_self a _
          · refine List.mem_cons_of_mem b ((ih (b :: seen)).mpr ⟨h1, fun hs => ?_⟩)
            rcases List.mem_cons.mp hs with h | h
            · exact hab h
            · exact h2 h

theorem mem_firstDedup {α : Type} [DecidableEq α] (a : α) (l : List α) :
    a ∈ firstDedup l ↔ a ∈ l := by
  simp [firstDedup, mem_firstDedupAux]

theorem splitCharsAux_ne_nil (p : Char → Bool) (l : List Char) :
    splitCharsAux p l ≠ [] := by
  induction l with
  | nil => simp [splitCharsAux]
  | cons c cs ih =>
    simp only [splitCharsAux]
    split
    · simp
    · split
      · simp
      · simp

theorem splitCharsAux_no_sep (p : Char → Bool) (l : List Char)
    (h : ∀ c ∈ l, p c = false) : splitCharsAux p l = [l] := by
  induction l with
  | nil => rfl
  | cons c cs ih =>
    have hc : p c = false := h c (List.mem_cons_self c cs)
    have hcs := ih (fun d hd => h d (List.mem_cons_of_mem c hd))
    simp only [splitCharsAux, hc, Bool.false_eq_true, if_false, hcs]

theorem splitCharsAux_append_sep (p : Char → Bool) (l₁ l₂ : List Char)
    (s : Char) (h : ∀ c ∈ l₁, p c = false) (hs : p s = true) :
    splitCharsAux p (l₁ ++ s :: l₂) = l₁ :: splitCharsAux p l₂ := by
  induction l₁ with
  | nil => simp [splitCharsAux, hs]
  | cons c cs ih =>
    have hc : p c = false := h c (List.mem_cons_self c cs)
    have hcs := ih (fun d hd => h d (List.mem_cons_of_mem c hd))
    simp only [List.cons_append, splitCharsAux, hc, Bool.false_eq_true,
      if_false, List.append_eq, hcs]

theorem splitCharsAux_eq_single (p : Char → Bool) (l a : List Char)
    (h : splitCharsAux p l = [a]) : a = l ∧ ∀ c ∈ l, p c = false := by
  induction l generalizing a with
  | nil =>
    simp only [splitCharsAux, List.cons.injEq] at h
    exact ⟨h.1.symm, by simp⟩
  | cons c cs ih =>
    simp only [splitCharsAux] at h
    by_cases hc : p c = true
    · rw [if_pos hc] at h
      simp only [List.cons.injEq] at h
      exact absurd h.2 (splitCharsAux_ne_nil p cs)
    · rw [if_neg hc] at h
      rcases hsp : splitCharsAux p cs with _ | ⟨hd, tl⟩
      · exact absurd hsp (splitCharsAux_ne_nil p cs)
      · rw [hsp] at h
        simp only [List.cons.injEq] at h
        obtain ⟨rfl, htl⟩ := h
        have : splitCharsAux p cs = [hd] := by rw [hsp, htl]
        obtain ⟨rfl, hall⟩ := ih hd this
        refine ⟨rfl, ?_⟩
        intro d hd
        rcases List.mem_cons.mp hd with rfl | hmem
        · exact Bool.eq_false_iff.mpr hc
        · exact hall d hmem

theorem splitCharsAux_eq_pair (p : Char → Bool) (l a b : List Char)
    (h : splitCharsAux p l = [a, b]) :
    ∃ s, p s = true ∧ l = a ++ s :: b ∧ (∀ c ∈ a, p c = false) ∧
      ∀ c ∈ b, p c = false := by
  induction l generalizing a with
  | nil => simp [splitCharsAux] at h
  | cons c cs ih =>
    simp only [splitCharsAux] at h
    by_cases hc : p c = true
    · rw [if_pos hc] at h
      simp only [List.cons.injEq] at h
      obtain ⟨rfl, hcs⟩ := h
      obtain ⟨rfl, hall⟩ := splitCharsAux_eq_single p cs b hcs
      exact ⟨c, hc, rfl, by simp, hall⟩
    · rw [if_neg hc] at h
      rcases hsp : splitCharsAux p cs with _ | ⟨hd, tl⟩
      · exact absurd hsp (splitCharsAux_ne_nil p cs)
      · rw [hsp] at h
        simp only [List.cons.injEq] at h
        obtain ⟨rfl, htl⟩ := h
        have hpair : splitCharsAux p cs = [hd, b] := by rw [hsp, htl]
        obtain ⟨s, hps, rfl, ha, hb⟩ := ih hd hpair
        refine ⟨s, hps, by simp, ?_, hb⟩
        intro d hdm
        rcases List.mem_cons.mp hdm with rfl | hmem
        · exact Bool.eq_false_iff.mpr hc
        · exact ha d hmem

theorem toList_append (s t : String) : (s ++ t).toList = s.toList ++ t.toList := by
  cases s; cases t; rfl

theorem mk_toList (s : String) : String.mk s.toList = s := by
  cases s; rfl

theorem toList_mk (l : List Char) : (String.mk l).toList = l := rfl

theorem takeWhile_append_stop (p : Char → Bool) (a b : List Char) (s : Char)
    (ha : ∀ c ∈ a, p c = true) (hs : p s = false) :
    (a ++ s :: b).takeWhile p = a ∧ (a ++ s :: b).dropWhile p = s :: b := by
  induction a with
  | nil => simp [List.takeWhile, List.dropWhile, hs]
  | cons c cs ih =>
    have hc : p c = true := ha c (List.mem_cons_self c cs)
    have h2 := ih (fun d hd => ha d (List.mem_cons_of_mem c hd))
    constructor
    · show List.takeWhile p (c :: (cs ++ s :: b)) = c :: cs
      rw [List.takeWhile_cons_of_pos hc, h2.1]
    · show List.dropWhile p (c :: (cs ++ s :: b)) = s :: b
      rw [List.dropWhile_cons_of_pos hc, h2.2]

theorem count_one_decomp (l : List Char) (h : l.count '.' = 1) :
    ∃ a b, l = a ++ '.' :: b ∧ '.' ∉ a ∧ '.' ∉ b := by
  induction l with
  | nil => simp at h
  | cons c cs ih =>
    by_cases hc : c = '.'
    · subst hc
      have hcs : cs.count '.' = 0 := by
        have := List.count_cons_self '.' cs
        omega
      exact ⟨[], cs, rfl, by simp, by rwa [← List.count_eq_zero]⟩
    · have hcs : cs.count '.' = 1 := by
        rw [List.count_cons_of_ne (by exact fun hx => hc hx.symm)] at h
        exact h
      obtain ⟨a, b, rfl, ha, hb⟩ := ih hcs
      exact ⟨c :: a, b, rfl, by
        intro hm
        rcases List.mem_cons.mp hm with hx | hx
        · exact hc hx.symm
        · exact ha hx, hb⟩

theorem splitDot_pair_iff (f g d : String) :
    splitDot f = [g, d] ↔
      f.toList = g.toList ++ '.' :: d.toList ∧
      (∀ c ∈ g.toList, c ≠ '.') ∧ (∀ c ∈ d.toList, c ≠ '.') := by
  constructor
  · intro h
    unfold splitDot jsSplit at h
    rcases hsp : splitCharsAux (fun c => decide (c = '.')) f.toList with
      _ | ⟨a, _ | ⟨b, _ | ⟨x, xs⟩⟩⟩
    · exact absurd hsp (splitCharsAux_ne_nil _ _)
    · rw [hsp] at h; simp at h
    · rw [hsp] at h
      simp only [List.map_cons, List.map_nil, List.cons.injEq, and_true] at h
      obtain ⟨rfl, rfl⟩ := h
      obtain ⟨s, hps, hdec, hna, hnb⟩ := splitCharsAux_eq_pair _ _ _ _ hsp
      have hs : s = '.' := of_decide_eq_true hps
      subst hs
      refine ⟨by rw [hdec, toList_mk, toList_mk], ?_, ?_⟩
      · intro c hc heq
        have := hna c (by rwa [toList_mk] at hc)
        rw [heq] at this; simp at this
      · intro c hc heq
        have := hnb c (by rwa [toList_mk] at hc)
        rw [heq] at this; simp at this
    · rw [hsp] at h; simp at h
  · rintro ⟨hdec, hg, hd⟩
    unfold splitDot jsSplit
    rw [hdec, splitCharsAux_append_sep _ _ _ _
      (fun c hc => decide_eq_false (hg c hc)) (by decide),
      splitCharsAux_no_sep _ _ (fun c hc => decide_eq_false (hd c hc))]
    simp [mk_toList]

theorem fragmentWarnings_eq_nil_iff (f : String) :
    fragmentWarnings f = [] ↔
      ∃ g d, splitDot f = [g, d] ∧ isFacetGroupCode g = true ∧
        isTermCode d = true := by
  constructor
  · intro h
    unfold fragmentWarnings at h
    rcases hsp : splitDot f with _ | ⟨g, _ | ⟨d, _ | ⟨x, xs⟩⟩⟩ <;> rw [hsp] at h
    · simp at h
    · simp at h
    · refine ⟨g, d, rfl, ?_, ?_⟩ <;>
        (by_cases hgc : isFacetGroupCode g = true <;>
         by_cases hdc : isTermCode d = true <;>
         simp [hgc, hdc] at h ⊢)
    · simp at h
  · rintro ⟨g, d, hsp, hg, hd⟩
    unfold fragmentWarnings
    rw [hsp]
    simp [hg, hd]

theorem specFragmentOK_iff (f : String) :
    specFragmentOK f = true ↔
      ∃ g d, splitDot f = [g, d] ∧ isFacetGroupCode g = true ∧
        isTermCode d = true := by
  constructor
  · intro h
    unfold specFragmentOK at h
    simp only [Bool.and_eq_true, decide_eq_true_eq] at h
    obtain ⟨⟨hcount, hgroup⟩, hterm⟩ := h
    obtain ⟨a, b, hdec, hna, hnb⟩ := count_one_decomp f.toList hcount
    have htw := takeWhile_append_stop (fun c => !(c = '.')) a b '.'
      (fun c hc => by
        simp only [Bool.not_eq_true', decide_eq_false_iff_not]
        exact fun heq => hna (heq ▸ hc))
      (by simp)
    refine ⟨String.mk a, String.mk b, ?_, ?_, ?_⟩
    · rw [splitDot_pair_iff]
      refine ⟨hdec, ?_, ?_⟩
      · intro c hc heq
        exact hna (heq ▸ hc)
      · intro c hc heq
        exact hnb (heq ▸ hc)
    · rw [hdec] at hgroup
      rwa [htw.1] at hgroup
    · rw [hdec] at hterm
      rw [htw.2] at hterm
      exact hterm
  · rintro ⟨g, d, hsp, hg, hd⟩
    obtain ⟨hdec, hng, hnd⟩ := (splitDot_pair_iff f g d).mp hsp
    have hcg : List.count '.' g.toList = 0 :=
      List.count_eq_zero.mpr (fun hm => hng '.' hm rfl)
    have hcd : List.count '.' d.toList = 0 :=
      List.count_eq_zero.mpr (fun hm => hnd '.' hm rfl)
    have htw := takeWhile_append_stop (fun c => !(c = '.')) g.toList d.toList '.'
      (fun c hc => by
        simp only [Bool.not_eq_true', decide_eq_false_iff_not]
        exact hng c hc)
      (by simp)
    unfold specFragmentOK
    simp only [Bool.and_eq_true, decide_eq_true_eq]
    refine ⟨⟨?_, ?_⟩, ?_⟩
    · rw [hdec, List.count_append, List.count_cons]
      simp only [String.toList] at hcg hcd
      simp [hcg, hcd]
    · rw [hdec, htw.1, mk_toList]
      exact hg
    · rw [hdec, htw.2]
      exact hd

theorem isFacetGroupCode_shape {g : String} (hg : isFacetGroupCode g = true) :
    ∃ d1 d2, g.toList = ['F', d1, d2] ∧ d1.isDigit = true ∧ d2.isDigit = true := by
  unfold isFacetGroupCode at hg
  rcases hl : g.toList with _ | ⟨c1, _ | ⟨c2, _ | ⟨c3, _ | ⟨c4, cs⟩⟩⟩⟩ <;>
    rw [hl] at hg <;> simp only [Bool.and_eq_true, decide_eq_true_eq] at hg
  · cases hg
  · cases hg
  · cases hg
  · exact ⟨c2, c3, by rw [hg.1.1], hg.1.2, hg.2⟩
  · cases hg

theorem isTermCode_shape {s : String} (h : isTermCode s = true) :
    s.toList.length = 5 ∧ ∀ c ∈ s.toList,
      (('A' ≤ c && c ≤ 'Z') || ('0' ≤ c && c ≤ '9')) = true := by
  unfold isTermCode at h
  simp only [Bool.and_eq_true, decide_eq_true_eq, List.all_eq_true] at h
  exact h

theorem alnum_char_not_special {c : Char}
    (h : (('A' ≤ c && c ≤ 'Z') || ('0' ≤ c && c ≤ '9')) = true) :
    ((c = '#' || c = '$') = false) ∧ c ≠ '.' ∧ c.isWhitespace = false := by
  refine ⟨?_, ?_, ?_⟩
  · by_cases h1 : c = '#'
    · subst h1; exact absurd h (by decide)
    · by_cases h2 : c = '$'
      · subst h2; exact absurd h (by decide)
      · simp [h1, h2]
  · intro h1
    subst h1; exact absurd h (by decide)
  · by_cases hw : c.isWhitespace = true
    · have hcases : ((c = ' ' ∨ c = '\t') ∨ c = '\x0d') ∨ c = '\n' := by
        simpa [Char.isWhitespace] using hw
      rcases hcases with ((rfl | rfl) | rfl) | rfl <;> exact absurd h (by decide)
    · simpa using hw

theorem digit_char_not_special {c : Char} (h : c.isDigit = true) :
    (c = '#' || c = '$') = false := by
  by_cases h1 : c = '#'
  · subst h1; exact absurd h (by decide)
  · by_cases h2 : c = '$'
    · subst h2; exact absurd h (by decide)
    · simp [h1, h2]

theorem fragment_chars {f : String} (hf : fragmentWarnings f = []) :
    (∀ c ∈ f.toList, (c = '#' || c = '$') = false) ∧ hasNonWS f = true := by
  obtain ⟨g, d, hsp, hg, hd⟩ := (fragmentWarnings_eq_nil_iff f).mp hf
  obtain ⟨hdec, _, _⟩ := (splitDot_pair_iff f g d).mp hsp
  obtain ⟨d1, d2, hshape, hd1, hd2⟩ := isFacetGroupCode_shape hg
  obtain ⟨_, hchars⟩ := isTermCode_shape hd
  constructor
  · intro c hc
    rw [hdec, hshape] at hc
    simp only [List.cons_append, List.mem_cons, List.mem_append] at hc
    rcases hc with rfl | rfl | rfl | hc
    · decide
    · exact digit_char_not_special hd1
    · exact digit_char_not_special hd2
    · rcases hc with hc | hc
      · simp at hc
      · rcases hc with rfl | hc
        · decide
        · exact (alnum_char_not_special (hchars c hc)).1
  · unfold hasNonWS
    rw [hdec, hshape]
    simp

theorem foldr_append_toList (fs : List String) :
    ((fs.map (fun g => "$" ++ g)).foldr (· ++ ·) "").toList =
      (fs.map (fun g => '$' :: g.toList)).flatten := by
  induction fs with
  | nil => rfl
  | cons g gs ih =>
    simp only [List.map_cons, List.foldr_cons, List.flatten_cons, toList_append, ih]
    rfl

theorem buildFacetString_toList (f : String) (fs : List String) :
    (buildFacetString (f :: fs)).toList =
      '#' :: (f.toList ++ (fs.map (fun g => '$' :: g.toList)).flatten) := by
  unfold buildFacetString
  rw [toList_append, toList_append, foldr_append_toList]
  rfl

theorem splitCharsAux_fragments (f : String) (fs : List String)
    (hf : ∀ c ∈ f.toList, (c = '#' || c = '$') = false)
    (hfs : ∀ g ∈ fs, ∀ c ∈ g.toList, (c = '#' || c = '$') = false) :
    splitCharsAux (fun c => c = '#' || c = '$')
        (f.toList ++ (fs.map (fun g => '$' :: g.toList)).flatten) =
      f.toList :: fs.map String.toList := by
  induction fs generalizing f with
  | nil =>
    simp only [List.map_nil, List.flatten_nil, List.append_nil]
    exact splitCharsAux_no_sep _ _ hf
  | cons g gs ih =>
    have hg := hfs g (List.mem_cons_self g gs)
    have hgs := fun x hx => hfs x (List.mem_cons_of_mem g hx)
    simp only [List.map_cons, List.flatten_cons]
    rw [show f.toList ++ (('$' :: g.toList) ++
          (gs.map (fun x => '$' :: x.toList)).flatten) =
        f.toList ++ '$' :: (g.toList ++
          (gs.map (fun x => '$' :: x.toList)).flatten) by simp,
      splitCharsAux_append_sep _ _ _ _ hf (by decide), ih g hg hgs]

theorem mem_soft_ite {c : Prop} [Decidable c] {i x : String} {w : Warning}
    (h : w ∈ if c then [createSoftWarning i x] else []) :
    w.severity = Severity.NONE := by
  split at h
  · rcases List.mem_singleton.mp h with rfl
    rfl
  · cases h

theorem validateSoftRules_severity (t : Term) (fs : List String) :
    ∀ w ∈ validateSoftRules t fs, w.severity = Severity.NONE := by
  intro w hw
  unfold validateSoftRules at hw
  simp only [List.mem_append] at hw
  rcases hw with ((((((hw | hw) | hw) | hw) | hw) | hw) | hw) | hw
  · exact mem_soft_ite (by unfold checkSR1 at hw; exact hw)
  · exact mem_soft_ite (by unfold checkSR2 at hw; exact hw)
  · exact mem_soft_ite (by unfold checkSR3 at hw; exact hw)
  · exact mem_soft_ite (by unfold checkSR4 at hw; exact hw)
  · simp only [checkSR5] at hw
    split at hw
    · rcases List.mem_singleton.mp hw with rfl
      rfl
    · cases hw
  · exact mem_soft_ite (by unfold checkSR6 at hw; exact hw)
  · exact mem_soft_ite (by unfold checkSR7 at hw; exact hw)
  · exact mem_soft_ite (by unfold checkSR8 at hw; exact hw)

theorem runSoftRules_severity (opts : Options) (bt : Option Term)
    (fs : List String) :
    ∀ w ∈ runSoftRulesValidation opts bt fs, w.severity = Severity.NONE := by
  intro w hw
  rcases bt with _ | t
  · simp only [runSoftRulesValidation] at hw
    cases hw
  · simp only [runSoftRulesValidation] at hw
    by_cases hskip : opts.skipSoftRules = true
    · rw [if_pos hskip] at hw
      cases hw
    · rw [if_neg hskip] at hw
      exact validateSoftRules_severity t fs w hw

theorem toList_eq_nil_iff (s : String) : s.toList = [] ↔ s = "" := by
  cases s with
  | mk data =>
    constructor
    · intro h
      exact congrArg String.mk h
    · intro h
      rw [h]
      rfl

/-! ## Claims -/

/-- C1: for every validated expression under the default configuration, the
result's `valid` flag is `true` iff no accumulated structural or
business-rule warning has severity `ERROR` or `HIGH` (soft-rule warnings
all carry severity `NONE` and never block); the legacy aggregator's `valid`
formula agrees with this under the default `allowHighWarnings = false`. -/
theorem validateCode_valid_iff (msgs : Messages) (db : DB)
    (fps : List ForbiddenProcess) (fullCode : String) :
    ((validateCode defaultOptions msgs db fps fullCode).valid = true ↔
      ∀ w ∈ structuralAndBusinessWarnings msgs db fps fullCode,
        w.severity ≠ Severity.ERROR ∧ w.severity ≠ Severity.HIGH)
    ∧ ∀ ws : List Warning, legacyFormatValid false ws = !hasBlockingIssues ws := by
  constructor
  · have hred : validateCode defaultOptions msgs db fps fullCode =
        formatResult (vbaResultOf db fullCode)
          (some (runBusinessRulesValidation defaultOptions msgs db fps
            (vbaResultOf db fullCode).baseTerm
            (vbaResultOf db fullCode).cleanedFacets))
          (some (runSoftRulesValidation defaultOptions
            (vbaResultOf db fullCode).baseTerm
            (vbaResultOf db fullCode).cleanedFacets)) := by
      unfold validateCode vbaResultOf defaultOptions
      simp
    rw [hred]
    unfold formatResult structuralAndBusinessWarnings
    simp only [Option.getD_some]
    have hsoft : hasBlockingIssues (runSoftRulesValidation defaultOptions
        (vbaResultOf db fullCode).baseTerm
        (vbaResultOf db fullCode).cleanedFacets) = false := by
      unfold hasBlockingIssues
      rw [List.any_eq_false]
      intro w hw
      rw [runSoftRules_severity _ _ _ w hw]
      simp
    unfold hasBlockingIssues at hsoft ⊢
    simp only [List.any_append, hsoft, Bool.or_false, Bool.not_eq_true',
      Bool.or_eq_false_iff, List.any_eq_false]
    constructor
    · rintro ⟨h1, h2⟩ w hw
      rcases List.mem_append.mp hw with hm | hm
      · have := h1 w hm
        simp only [Bool.or_eq_true, decide_eq_true_eq, not_or] at this
        exact this
      · have := h2 w hm
        simp only [Bool.or_eq_true, decide_eq_true_eq, not_or] at this
        exact this
    · intro h
      constructor
      · intro w hw
        simp only [Bool.or_eq_true, decide_eq_true_eq, not_or]
        exact h w (List.mem_append.mpr (Or.inl hw))
      · intro w hw
        simp only [Bool.or_eq_true, decide_eq_true_eq, not_or]
        exact h w (List.mem_append.mpr (Or.inr hw))
  · intro ws
    unfold legacyFormatValid hasBlockingIssues
    rw [Bool.eq_iff_iff]
    simp only [Bool.and_eq_true, Bool.or_eq_true, Bool.not_eq_true',
      List.any_eq_false, List.any_eq_true, Bool.not_eq_true,
      decide_eq_false_iff_not, decide_eq_true_eq]
    constructor
    · rintro ⟨h1, h2 | h2⟩ w hw
      · rcases h2 with h2
        push_neg at h2
        exact not_or.mpr ⟨h1 w hw, h2 w hw⟩
      · cases h2
    · intro h
      constructor
      · intro w hw
        exact (not_or.mp (h w hw)).1
      · left
        push_neg
        intro w hw
        exact (not_or.mp (h w hw)).2

/-- C1 witness: a concrete accepted expression. -/
theorem validateCode_valid_iff_witness :
    (validateCode defaultOptions defaultMessages exDBA [] "AAAAA").valid = true :=
  (validateCode_valid_iff defaultMessages exDBA [] "AAAAA").1.mpr (by decide)

/-- C2: under the configuration the service actually applies by default
(`stopOnStructuralError` is computed as `true` but discarded for the default
`ICT` context), an expression on which the structural validator produces an
`ERROR` warning still reaches the rule evaluator: the result carries a
business-rule warning next to the structural one.  With the flag actually
set, the evaluator is skipped as the spec describes. -/
theorem serviceValidateCode_runs_rules_after_structural_error :
    ((serviceValidateCode defaultMessages exDBA [] none none
        "AAAAA#XYZ").warnings.any (fun w => w.severity = Severity.ERROR) = true)
    ∧ ((serviceValidateCode defaultMessages exDBA [] none none
        "AAAAA#XYZ").warnings.any (fun w => w.wtype = "BUSINESS_RULE") = true)
    ∧ ((validateCode { defaultOptions with stopOnStructuralError := true }
          defaultMessages exDBA [] "AAAAA#XYZ").warnings.all
        (fun w => w.wtype ≠ "BUSINESS_RULE") = true) := by
  exact ⟨by decide, by decide, by decide⟩

/-- C3 counterexample: the implicit-facets parser splits on `'$'` only; the
same facets written with a `'#'` separator parse differently. -/
theorem parseImplicitFacets_hash_counterexample :
    parseImplicitFacets "F01.AAAAA#F27.BBBBB" ≠
      parseImplicitFacets "F01.AAAAA$F27.BBBBB" ∧
    parseImplicitFacets "F01.AAAAA#F27.BBBBB" = ["F01.AAAAA#F27.BBBBB"] := by
  exact ⟨by decide, by decide⟩

theorem joinWith_dollar_toList_ne_nil (g : String) (gs : List String)
    (hg : g ≠ "") : (joinWith "$" (g :: gs)).toList ≠ [] := by
  cases gs with
  | nil =>
    intro h
    exact hg ((toList_eq_nil_iff g).mp h)
  | cons g2 gs2 =>
    show (g ++ "$" ++ joinWith "$" (g2 :: gs2)).toList ≠ []
    rw [toList_append, toList_append]
    intro h
    rcases List.append_eq_nil.mp h with ⟨h1, -⟩
    rcases List.append_eq_nil.mp h1 with ⟨-, h2⟩
    cases h2

/-- C3 amended: the implicit-facets parser inverts `'$'`-joined fragment
lists (the `'$'`-separated catalogue encoding); `'#'` is not accepted as a
separator. -/
theorem parseImplicitFacets_dollar_join (fs : List String)
    (h : ∀ f ∈ fs, f ≠ "" ∧ ∀ c ∈ f.toList, c ≠ '$') :
    parseImplicitFacets (joinWith "$" fs) = fs := by
  induction fs with
  | nil => rfl
  | cons f gs ih =>
    obtain ⟨hne, hnosep⟩ := h f (List.mem_cons_self f gs)
    cases gs with
    | nil =>
      unfold joinWith parseImplicitFacets
      rw [if_neg hne]
      unfold jsSplit
      rw [splitCharsAux_no_sep _ _ (fun c hc => decide_eq_false (hnosep c hc))]
      simp [mk_toList, hne]
    | cons g gs2 =>
      have hg := h g (List.mem_cons_of_mem f (List.mem_cons_self g gs2))
      have hrest : joinWith "$" (g :: gs2) ≠ "" := by
        intro he
        exact joinWith_dollar_toList_ne_nil g gs2 hg.1 (by rw [he]; rfl)
      have hrec := ih (fun x hx => h x (List.mem_cons_of_mem f hx))
      have hwhole : (f ++ "$" ++ joinWith "$" (g :: gs2)) ≠ "" := by
        intro he
        have := (toList_eq_nil_iff _).mpr he
        rw [toList_append, toList_append] at this
        rcases List.append_eq_nil.mp this with ⟨h1, -⟩
        rcases List.append_eq_nil.mp h1 with ⟨-, h2⟩
        cases h2
      show parseImplicitFacets (f ++ "$" ++ joinWith "$" (g :: gs2)) =
        f :: g :: gs2
      unfold parseImplicitFacets at hrec ⊢
      rw [if_neg hwhole]
      rw [if_neg hrest] at hrec
      unfold jsSplit at hrec ⊢
      rw [show (f ++ "$" ++ joinWith "$" (g :: gs2)).toList =
          f.toList ++ '$' :: (joinWith "$" (g :: gs2)).toList by
        rw [toList_append, toList_append]
        simp]
      rw [splitCharsAux_append_sep _ _ _ _
        (fun c hc => decide_eq_false (hnosep c hc)) (by decide)]
      simp only [List.map_cons, mk_toList, List.filter_cons]
      rw [if_pos (by simp [hne]), hrec]

/-- C3 amended witness. -/
theorem parseImplicitFacets_dollar_join_witness :
    parseImplicitFacets (joinWith "$" ["F01.AAAAA", "F27.BBBBB"]) =
      ["F01.AAAAA", "F27.BBBBB"] :=
  parseImplicitFacets_dollar_join ["F01.AAAAA", "F27.BBBBB"] (by decide)

theorem filter_ord_eq (P : List ProcInfo) (o : Rat) (ho : o ≠ 0) :
    (P.filter (fun p => p.ordinalCode ≠ 0)).filter
        (fun q => q.ordinalCode = o) =
      P.filter (fun q => q.ordinalCode = o) := by
  induction P with
  | nil => rfl
  | cons p ps ih =>
    by_cases hpo : p.ordinalCode = o
    · have hp0 : p.ordinalCode ≠ 0 := fun h => ho (hpo.symm.trans h)
      simp only [List.filter_cons, decide_eq_true_eq]
      rw [if_pos hp0, List.filter_cons]
      simp only [decide_eq_true_eq]
      rw [if_pos hpo, if_pos hpo, ih]
    · by_cases hp0 : p.ordinalCode = 0
      · simp only [List.filter_cons, decide_eq_true_eq]
        rw [if_neg (not_not_intro hp0), if_neg hpo, ih]
      · simp only [List.filter_cons, decide_eq_true_eq]
        rw [if_pos hp0, List.filter_cons]
        simp only [decide_eq_true_eq]
        rw [if_neg hpo, if_neg hpo, ih]

/-- C4 counterexample: `checkBR26` fires on a derivative whose two `F28`
processes are both implicit (sharing ordinal `1`), although the claim
requires at least one explicit process. -/
theorem checkBR26_spec_counterexample :
    checkBR26 defaultMessages exDBD exFPSD exBaseD [] ≠ [] ∧
    br26SpecTrigger exDBD exFPSD exBaseD [] = false := by
  exact ⟨by decide, by decide⟩

/-- C4 amended: on a derivative base term, a BR26 HIGH warning is emitted
iff at least two of the `F28` processes (implicit or explicit) share the
same non-zero ordinal code — by exact ordinal value, fractional ordinals
included, with no requirement that any of them be explicit. -/
theorem checkBR26_iff (db : DB) (fps : List ForbiddenProcess) (base : Term)
    (facets : List String) (hd : isDerivative base = true) :
    (checkBR26 defaultMessages db fps base facets ≠ [] ↔
      ∃ p ∈ getProcessesWithOrdinalCodes db fps base facets,
        p.ordinalCode ≠ 0 ∧
        2 ≤ ((getProcessesWithOrdinalCodes db fps base facets).filter
          (fun q => q.ordinalCode = p.ordinalCode)).length)
    ∧ ∀ w ∈ checkBR26 defaultMessages db fps base facets,
        w.rule = "BR26" ∧ w.severity = Severity.HIGH := by
  unfold checkBR26
  rw [hd]
  simp only [Bool.not_true, Bool.false_eq_true, if_false]
  constructor
  · rw [filterMap_ne_nil_iff]
    constructor
    · rintro ⟨o, ho, hsome⟩
      rw [mem_firstDedup] at ho
      obtain ⟨p, hp, hpo⟩ := List.mem_map.mp ho
      obtain ⟨hpP, hp0⟩ := List.mem_filter.mp hp
      have hp0' : p.ordinalCode ≠ 0 := of_decide_eq_true hp0
      refine ⟨p, hpP, hp0', ?_⟩
      have hoo : o ≠ 0 := hpo ▸ hp0'
      by_cases hlen : 1 < ((((getProcessesWithOrdinalCodes db fps base
          facets).filter (fun p => p.ordinalCode ≠ 0)).filter
            (fun q => q.ordinalCode = o)).map (fun p => p.code)).length
      · rw [List.length_map, filter_ord_eq _ o hoo] at hlen
        rw [hpo]
        exact hlen
      · rw [if_neg hlen] at hsome
        cases hsome
    · rintro ⟨p, hpP, hp0, hcount⟩
      refine ⟨p.ordinalCode, ?_, ?_⟩
      · rw [mem_firstDedup]
        exact List.mem_map.mpr ⟨p,
          List.mem_filter.mpr ⟨hpP, decide_eq_true hp0⟩, rfl⟩
      · rw [if_pos]
        · exact rfl
        · rw [List.length_map, filter_ord_eq _ _ hp0]
          omega
  · intro w hw
    obtain ⟨o, ho, heq⟩ := List.mem_filterMap.mp hw
    split at heq
    · cases heq
      exact ⟨rfl, rfl⟩
    · cases heq

/-- C4 amended witness: two implicit processes sharing ordinal `1`. -/
theorem checkBR26_iff_witness :
    checkBR26 defaultMessages exDBD exFPSD exBaseD [] ≠ [] :=
  (checkBR26_iff exDBD exFPSD exBaseD [] (by decide)).1.mpr
    ⟨⟨"PPPP1", 1, true⟩, by decide, by decide, by decide⟩

/-- C5 counterexample: with the explicit `F01` descriptor an ancestor of the
implicit one in `source` — the hierarchy assigned to `F01` — and the two not
siblings, the spec's trigger holds but `checkBR16` emits nothing, because
the code interrogates a hierarchy named `f01`. -/
theorem checkBR16_spec_counterexample :
    br16SpecTrigger exDBS exBaseS ["F01.PPPPP"] = true ∧
    checkBR16 defaultMessages exDBS exBaseS ["F01.PPPPP"] = [] := by
  exact ⟨by decide, by decide⟩

/-- C5 amended: a BR16 HIGH warning is emitted when, for some implicit facet
of the same group, the explicit descriptor is an ancestor of the implicit
descriptor and the two are not siblings — both relations taken in the
hierarchy whose code is the lowercased facet-group id (e.g. `f01`), not in
the hierarchy of the facet-group-to-hierarchy map. -/
theorem checkBR16_emits (db : DB) (base : Term) (facets : List String)
    (ex : String) (hex : ex ∈ facets) (hg : facetGroupOf ex ≠ "")
    (hc : facetDescrOf ex ≠ "") (im : String)
    (him : im ∈ parseImplicitFacets base.implicit_facets)
    (hstart : jsStartsWith im (facetGroupOf ex ++ ".") = true)
    (hpar : isParentOf db (facetDescrOf ex) (facetDescrOf im)
      (jsToLower (facetGroupOf ex)) = true)
    (hsib : areSiblings db (facetDescrOf ex) (facetDescrOf im)
      (jsToLower (facetGroupOf ex)) = false) :
    ∃ w ∈ checkBR16 defaultMessages db base facets,
      w.rule = "BR16" ∧ w.severity = Severity.HIGH := by
  have hmatch : (((parseImplicitFacets base.implicit_facets).filter
      (fun f => jsStartsWith f (facetGroupOf ex ++ "."))).map facetDescrOf).any
      (fun implicitCode =>
        !areSiblings db (facetDescrOf ex) implicitCode
          (jsToLower (facetGroupOf ex)) &&
        isParentOf db (facetDescrOf ex) implicitCode
          (jsToLower (facetGroupOf ex))) = true := by
    rw [List.any_eq_true]
    refine ⟨facetDescrOf im,
      List.mem_map.mpr ⟨im, List.mem_filter.mpr ⟨him, hstart⟩, rfl⟩, ?_⟩
    rw [hsib, hpar]
    rfl
  unfold checkBR16
  refine ⟨createWarning defaultMessages "BR16" (facetDescrOf ex),
    List.mem_filterMap.mpr ⟨ex, hex, ?_⟩, rfl, rfl⟩
  show (if (facetGroupOf ex = "" || facetDescrOf ex = "") then none
    else if (((parseImplicitFacets base.implicit_facets).filter
        (fun f => jsStartsWith f (facetGroupOf ex ++ "."))).map facetDescrOf).any
        (fun implicitCode =>
          !areSiblings db (facetDescrOf ex) implicitCode
            (jsToLower (facetGroupOf ex)) &&
          isParentOf db (facetDescrOf ex) implicitCode
            (jsToLower (facetGroupOf ex))) then
      some (createWarning defaultMessages "BR16" (facetDescrOf ex))
    else none) =
    some (createWarning defaultMessages "BR16" (facetDescrOf ex))
  rw [if_neg (by simp [hg, hc]), if_pos (by rw [hmatch])]

/-- C5 amended witness: the same ancestor situation recorded under the
hierarchy code `f01` does produce the warning. -/
theorem checkBR16_emits_witness :
    checkBR16 defaultMessages exDBS2 exBaseS ["F01.PPPPP"] ≠ [] := by
  obtain ⟨w, hw, -⟩ := checkBR16_emits exDBS2 exBaseS ["F01.PPPPP"] "F01.PPPPP"
    (by decide) (by decide) (by decide) "F01.CCCCC" (by decide) (by decide)
    (by decide) (by decide)
  intro h
  rw [h] at hw
  cases hw

/-- C6 counterexample: a base named `Milk` (no dehydration word) with an
implicit `F28` descriptor in the dehydration set `["A07GE"]` and an explicit
reconstitution facet triggers the spec's condition, yet `checkBR28` emits
nothing: the implicit-facet branch is not implemented. -/
theorem checkBR28_spec_counterexample :
    br28SpecTrigger ["A07GE"] exBaseM ["F28.A07MR"] = true ∧
    checkBR28 defaultMessages exBaseM ["F28.A07MR"] = [] := by
  exact ⟨by decide, by decide⟩

/-- C6 amended: a BR28 HIGH warning is emitted iff the base term's name
contains one of `concentrate`, `powder`, `dried`, `dehydrated`
(case-insensitively) and some explicit `F28` descriptor is a reconstitution
or dilution; no implicit-`F28` dehydration test takes place. -/
theorem checkBR28_iff (base : Term) (facets : List String) :
    (checkBR28 defaultMessages base facets ≠ [] ↔
      isConcentrateOrPowder base = true ∧
      ∃ f ∈ facets, jsStartsWith f "F28." = true ∧
        reconstitutionProcesses.contains (facetDescrOf f) = true)
    ∧ ∀ w ∈ checkBR28 defaultMessages base facets,
        w.rule = "BR28" ∧ w.severity = Severity.HIGH := by
  unfold checkBR28
  by_cases hcp : isConcentrateOrPowder base = true
  · rw [hcp]
    simp only [Bool.not_true, Bool.false_eq_true, if_false]
    constructor
    · rw [filterMap_ne_nil_iff]
      constructor
      · rintro ⟨f, hf, hsome⟩
        obtain ⟨hfl, hstart⟩ := List.mem_filter.mp hf
        by_cases hcont : reconstitutionProcesses.contains (facetDescrOf f) = true
        · exact ⟨by trivial, f, hfl, hstart, hcont⟩
        · rw [if_neg hcont] at hsome
          cases hsome
      · rintro ⟨-, f, hfl, hstart, hcont⟩
        refine ⟨f, List.mem_filter.mpr ⟨hfl, hstart⟩, ?_⟩
        rw [if_pos hcont]
        rfl
    · intro w hw
      obtain ⟨f, hf, heq⟩ := List.mem_filterMap.mp hw
      split at heq
      · cases heq
        exact ⟨rfl, rfl⟩
      · cases heq
  · have hcp2 : isConcentrateOrPowder base = false := by simpa using hcp
    rw [hcp2]
    simp only [Bool.not_false, if_true]
    constructor
    · constructor
      · intro h
        exact absurd rfl h
      · rintro ⟨h, -⟩
        cases h
    · intro w hw
      cases hw

/-- C6 amended witness: reconstitution on a concentrate-named base term. -/
theorem checkBR28_iff_witness :
    checkBR28 defaultMessages exBaseK ["F28.A07MR"] ≠ [] :=
  (checkBR28_iff exBaseK ["F28.A07MR"]).1.mpr
    ⟨by decide, "F28.A07MR", by decide, by decide, by decide⟩

/-- C7: on a raw-commodity base term, a BR19 HIGH warning naming descriptor
`pc` is emitted iff some explicit `F28` facet carries `pc` and `pc` lies in
the forbidden-process set of the base — which is exactly the union of the
forbidden-process entries of the base term and of its ancestors in the
`report` hierarchy. -/
theorem checkBR19_iff (db : DB) (fps : List ForbiddenProcess) (base : Term)
    (facets : List String) (pc : String) :
    ((∃ w ∈ checkBR19 defaultMessages db fps base facets, w.involved = pc) ↔
      (base.term_type = "r" ∧
       (∃ f ∈ facets, jsStartsWith f "F28." = true ∧ facetDescrOf f = pc) ∧
       pc ∈ getForbiddenProcesses db fps base.code))
    ∧ (pc ∈ getForbiddenProcesses db fps base.code ↔
       ∃ a, (a = base.code ∨ a ∈ getAncestors db base.code "report") ∧
         ∃ fp ∈ fps, fp.rootGroupCode = a ∧ fp.forbiddenProcessCode = pc)
    ∧ ∀ w ∈ checkBR19 defaultMessages db fps base facets,
        w.rule = "BR19" ∧ w.severity = Severity.HIGH := by
  have hmem : pc ∈ getForbiddenProcesses db fps base.code ↔
      ∃ a, (a = base.code ∨ a ∈ getAncestors db base.code "report") ∧
        ∃ fp ∈ fps, fp.rootGroupCode = a ∧ fp.forbiddenProcessCode = pc := by
    unfold getForbiddenProcesses
    rw [mem_firstDedup]
    simp only [List.mem_flatten, List.mem_map, List.mem_filter,
      List.mem_append, List.mem_singleton, decide_eq_true_eq]
    constructor
    · rintro ⟨L, ⟨a, ha, rfl⟩, hpc⟩
      rw [List.mem_map] at hpc
      obtain ⟨fp, hfp2, rfl⟩ := hpc
      rw [List.mem_filter] at hfp2
      obtain ⟨hfp, hroot⟩ := hfp2
      exact ⟨a, by tauto, fp, hfp, of_decide_eq_true hroot, rfl⟩
    · rintro ⟨a, ha, fp, hfp, hroot, rfl⟩
      refine ⟨_, ⟨a, by tauto, rfl⟩, ?_⟩
      rw [List.mem_map]
      exact ⟨fp, List.mem_filter.mpr ⟨hfp, decide_eq_true hroot⟩, rfl⟩
  refine ⟨?_, hmem, ?_⟩
  · unfold checkBR19
    by_cases hr : base.term_type = "r"
    · have hraw : isRawCommodity base = true := decide_eq_true hr
      rw [hraw]
      simp only [Bool.not_true, Bool.false_eq_true, if_false]
      constructor
      · rintro ⟨w, hw, hinv⟩
        obtain ⟨f, hf, heq⟩ := List.mem_filterMap.mp hw
        obtain ⟨hfl, hstart⟩ := List.mem_filter.mp hf
        split at heq
        · cases heq
          rename_i hcont
          refine ⟨hr, ⟨f, hfl, hstart, hinv⟩, ?_⟩
          rw [← hinv]
          simpa using hcont
        · cases heq
      · rintro ⟨-, ⟨f, hfl, hstart, hdescr⟩, hforb⟩
        refine ⟨createWarning defaultMessages "BR19" (facetDescrOf f),
          List.mem_filterMap.mpr ⟨f, List.mem_filter.mpr ⟨hfl, hstart⟩, ?_⟩,
          hdescr⟩
        rw [if_pos (by rw [hdescr]; simpa using hforb)]
    · have hraw : isRawCommodity base = false := decide_eq_false hr
      rw [hraw]
      simp only [Bool.not_false, if_true]
      constructor
      · rintro ⟨w, hw, -⟩
        cases hw
      · rintro ⟨h, -, -⟩
        exact absurd h hr
  · unfold checkBR19
    intro w hw
    split at hw
    · cases hw
    · obtain ⟨f, hf, heq⟩ := List.mem_filterMap.mp hw
      split at heq
      · cases heq
        exact ⟨rfl, rfl⟩
      · cases heq

/-- C7 witness: a forbidden process inherited from the `report`-hierarchy
ancestor of the base term. -/
theorem checkBR19_iff_witness :
    checkBR19 defaultMessages exDBR exFPSR exBaseR ["F28.A07LG"] ≠ [] := by
  obtain ⟨w, hw, -⟩ :=
    (checkBR19_iff exDBR exFPSR exBaseR ["F28.A07LG"] "A07LG").1.mpr
      ⟨rfl, ⟨"F28.A07LG", by decide, by decide, by decide⟩, by decide⟩
  intro h
  rw [h] at hw
  cases hw

/-- C8: the structural validator emits the base-structure `ERROR` exactly
when the base prefix fails `^[A-Z0-9]{5}$` (inputs of total length below
five always fail it), and rejects a facet fragment exactly when it does not
consist of one `.` with an `^F\d{2}$` left side and an `^[A-Z0-9]{5}$`
right side; every such rejection carries severity `ERROR`. -/
theorem parser_struct_iff (db : DB) (fullCode : String) :
    (((checkBaseTerm db (parseFullCode fullCode).1).2.any
        (fun w => w.rule = "VBA-STRUCT") = true) ↔
      isTermCode (parseFullCode fullCode).1 = false)
    ∧ (fullCode.toList.length < 5 →
        isTermCode (parseFullCode fullCode).1 = false)
    ∧ (∀ frag ∈ parseFacetString (parseFullCode fullCode).2,
        (fragmentWarnings frag ≠ [] ↔ specFragmentOK frag = false))
    ∧ (∀ frag : String, ∀ w ∈ fragmentWarnings frag,
        w.severity = Severity.ERROR)
    ∧ (∀ w ∈ (checkBaseTerm db (parseFullCode fullCode).1).2,
        w.severity = Severity.ERROR) := by
  refine ⟨?_, ?_, ?_, ?_, ?_⟩
  · unfold checkBaseTerm
    by_cases hb : isTermCode (parseFullCode fullCode).1 = true
    · rw [hb]
      simp only [Bool.not_true, Bool.false_eq_true, if_false]
      rcases dbGetTerm db (parseFullCode fullCode).1 with _ | t
      · simp
      · simp
    · have hb2 : isTermCode (parseFullCode fullCode).1 = false := by
        simpa using hb
      rw [hb2]
      simp
  · intro h5
    unfold parseFullCode
    rw [if_pos h5]
    show isTermCode fullCode = false
    unfold isTermCode
    rw [decide_eq_false (by omega)]
    simp
  · intro frag hfrag
    have hiff : fragmentWarnings frag = [] ↔ specFragmentOK frag = true :=
      (fragmentWarnings_eq_nil_iff frag).trans (specFragmentOK_iff frag).symm
    constructor
    · intro hne
      rcases hOK : specFragmentOK frag
      · rfl
      · exact absurd (hiff.mpr hOK) hne
    · intro hfalse hnil
      have := hiff.mp hnil
      rw [hfalse] at this
      cases this
  · intro frag w hw
    unfold fragmentWarnings at hw
    split at hw
    · split at hw
      · rcases List.mem_singleton.mp hw with rfl
        rfl
      · split at hw
        · rcases List.mem_singleton.mp hw with rfl
          rfl
        · cases hw
    · rcases List.mem_singleton.mp hw with rfl
      rfl
  · intro w hw
    unfold checkBaseTerm at hw
    split at hw
    · rcases List.mem_singleton.mp hw with rfl
      rfl
    · split at hw
      · rcases List.mem_singleton.mp hw with rfl
        rfl
      · cases hw

/-- C8 witness: a short input rejected at the base, and a malformed fragment
rejected with its structural warning. -/
theorem parser_struct_iff_witness :
    ((checkBaseTerm exDBA (parseFullCode "A0").1).2.any
      (fun w => w.rule = "VBA-STRUCT") = true) ∧
    fragmentWarnings "F2.XYZ" ≠ [] := by
  constructor
  · exact (parser_struct_iff exDBA "A0").1.mpr (by decide)
  · exact ((parser_struct_iff exDBA "A0B9Z#F2.XYZ").2.2.1 "F2.XYZ"
      (by decide)).mpr (by decide)

theorem validateFacetDescriptor_pass (db : DB) (f : String)
    (h : (validateFacetDescriptor db f).1 = true) :
    (dbGetTerm db (facetDescrOf f)).isSome = true ∧
    belongsToHierarchy db (facetDescrOf f)
      (hierarchyMap (facetGroupOf f)) = true := by
  simp only [validateFacetDescriptor] at h
  rcases hdb : dbGetTerm db (facetDescrOf f) with _ | t <;>
    rw [hdb] at h <;> dsimp only at h
  · cases h
  · split at h
    · rename_i hbel
      exact ⟨rfl, hbel⟩
    · cases h

theorem validateFoodEx2Code_facets (db : DB) (b fstr : String) :
    (∀ f ∈ (validateFoodEx2Code db b fstr).cleanedFacets,
      (dbGetTerm db (facetDescrOf f)).isSome = true ∧
      belongsToHierarchy db (facetDescrOf f)
        (hierarchyMap (facetGroupOf f)) = true)
    ∧ ((validateFoodEx2Code db b fstr).cleanedCode = none ∨
       (validateFoodEx2Code db b fstr).cleanedCode =
         some (b ++ buildFacetString
           (validateFoodEx2Code db b fstr).cleanedFacets)) := by
  unfold validateFoodEx2Code
  rcases hbt : checkBaseTerm db b with ⟨bt, w1⟩
  rcases bt with _ | term
  · exact ⟨fun f hf => absurd hf (List.not_mem_nil f), Or.inl rfl⟩
  · dsimp only
    split
    · exact ⟨fun f hf => absurd hf (List.not_mem_nil f), Or.inl rfl⟩
    · constructor
      · intro f hf
        obtain ⟨hmem, hpass⟩ := List.mem_filter.mp hf
        exact validateFacetDescriptor_pass db f hpass
      · split
        · right
          rfl
        · left
          rfl

theorem validateCode_projections (opts : Options) (msgs : Messages) (db : DB)
    (fps : List ForbiddenProcess) (fullCode : String) :
    (validateCode opts msgs db fps fullCode).facets =
      (vbaResultOf db fullCode).cleanedFacets ∧
    (validateCode opts msgs db fps fullCode).cleanedCode =
      (vbaResultOf db fullCode).cleanedCode := by
  unfold validateCode vbaResultOf formatResult
  dsimp only
  split <;> exact ⟨rfl, rfl⟩

/-- C9: in every result of the default-configuration validator, each facet
in the result's facet list resolves to an existing catalogue term belonging
to the hierarchy assigned to its facet group, and the rebuilt cleaned code
(when present) is serialized from exactly that surviving facet list. -/
theorem validateCode_facets_resolve (msgs : Messages) (db : DB)
    (fps : List ForbiddenProcess) (fullCode : String) :
    (∀ f ∈ (validateCode defaultOptions msgs db fps fullCode).facets,
      (dbGetTerm db (facetDescrOf f)).isSome = true ∧
      belongsToHierarchy db (facetDescrOf f)
        (hierarchyMap (facetGroupOf f)) = true)
    ∧ ((validateCode defaultOptions msgs db fps fullCode).cleanedCode = none ∨
       (validateCode defaultOptions msgs db fps fullCode).cleanedCode =
         some ((parseFullCode fullCode).1 ++ buildFacetString
           (validateCode defaultOptions msgs db fps fullCode).facets)) := by
  obtain ⟨hf, hc⟩ := validateCode_projections defaultOptions msgs db fps fullCode
  rw [hf, hc]
  exact validateFoodEx2Code_facets db (parseFullCode fullCode).1
    (parseFullCode fullCode).2

/-- C9 witness: a surviving facet resolves and belongs to its mapped
hierarchy. -/
theorem validateCode_facets_resolve_witness :
    (dbGetTerm exDBV (facetDescrOf "F28.DDDDD")).isSome = true ∧
    belongsToHierarchy exDBV (facetDescrOf "F28.DDDDD")
      (hierarchyMap (facetGroupOf "F28.DDDDD")) = true :=
  (validateCode_facets_resolve defaultMessages exDBV []
    "AAAAA#F28.DDDDD").1 "F28.DDDDD" (by decide)

theorem splitCharsAux_cons_sep (p : Char → Bool) (c : Char) (cs : List Char)
    (hc : p c = true) : splitCharsAux p (c :: cs) = [] :: splitCharsAux p cs := by
  simp [splitCharsAux, hc]

/-- C10: serializing a well-formed expression's facet list with `#` before
the first facet and `$` before every later one and then parsing the result
returns the same base code and facet list. -/
theorem parse_serialize_roundtrip (base : String) (facets : List String)
    (hbase : isTermCode base = true)
    (hfacets : ∀ f ∈ facets, fragmentWarnings f = []) :
    parseFullCode (base ++ buildFacetString facets) =
      (base, buildFacetString facets) ∧
    parseFacetString (buildFacetString facets) = facets := by
  have hlen : base.toList.length = 5 := (isTermCode_shape hbase).1
  constructor
  · have h5 : ¬ (base ++ buildFacetString facets).toList.length < 5 := by
      rw [toList_append, List.length_append, hlen]
      omega
    unfold parseFullCode
    rw [if_neg h5, toList_append]
    rw [show (5 : Nat) = base.toList.length from hlen.symm,
      List.take_left, List.drop_left, mk_toList, mk_toList]
  · rcases facets with _ | ⟨f, fs⟩
    · rfl
    · have hchars : ∀ g ∈ f :: fs,
          (∀ c ∈ g.toList, (c = '#' || c = '$') = false) ∧ hasNonWS g = true :=
        fun g hg => fragment_chars (hfacets g hg)
      have hne : buildFacetString (f :: fs) ≠ "" := by
        intro he
        have hnil : (buildFacetString (f :: fs)).toList = [] := by
          rw [he]
          rfl
        rw [buildFacetString_toList] at hnil
        cases hnil
      unfold parseFacetString
      rw [if_neg hne]
      unfold jsSplit
      rw [buildFacetString_toList,
        splitCharsAux_cons_sep _ _ _ (by decide),
        splitCharsAux_fragments f fs (hchars f (List.mem_cons_self f fs)).1
          (fun g hg => (hchars g (List.mem_cons_of_mem f hg)).1)]
      simp only [List.map_cons, mk_toList, List.map_map]
      have hmap : fs.map (String.mk ∘ String.toList) = fs := by
        rw [show fs.map (String.mk ∘ String.toList) = fs.map id from
          List.map_congr_left (fun a _ => mk_toList a), List.map_id]
      rw [hmap, List.filter_cons]
      rw [if_neg (by decide)]
      exact List.filter_eq_self.mpr (fun a ha => (hchars a ha).2)

/-- C10 witness: a concrete two-facet expression round-trips. -/
theorem parse_serialize_roundtrip_witness :
    parseFullCode ("A0B9Z" ++ buildFacetString ["F28.A07JS", "F01.A0F6E"]) =
      ("A0B9Z", buildFacetString ["F28.A07JS", "F01.A0F6E"]) ∧
    parseFacetString (buildFacetString ["F28.A07JS", "F01.A0F6E"]) =
      ["F28.A07JS", "F01.A0F6E"] :=
  parse_serialize_roundtrip "A0B9Z" ["F28.A07JS", "F01.A0F6E"]
    (by decide) (by decide)
